import Mathlib

/-!
Verification development for the wordwise-ai text-analysis core.

The TypeScript source is shallowly embedded as follows:

* JavaScript strings are modelled as `Str := List Char` (the reference
  implementation indexes by native character units; all texts used in
  concrete evaluations are ASCII).
* JavaScript `number` values that carry confidences / scores are modelled
  as exact rationals (`ℚ`).  All statements proved below were chosen so
  that the compared quantities are not affected by IEEE-754 rounding
  (the discriminating observations are booleans, enumerations, string
  lists, and comparisons that are far away from representability
  boundaries; thresholds such as `sentenceLength * 0.1` are only ever
  compared against integers, and `0.1 * n` / `0.9 * n` never round to
  the other side of an integer for the integer magnitudes involved).
* The JavaScript regular-expression engine is external to the repository;
  rule-pattern matching (`RegExp.exec` loops / `String.matchAll`) is
  therefore modelled by an abstract executor `RegexExec` taking the
  pattern source and the subject string, constrained where needed by the
  soundness contract `SoundExec` (every reported match is a non-empty
  substring occurring at the reported index; all rule patterns in this
  repository contain at least one mandatory literal character, so they
  cannot produce empty matches).  Concrete regexes that belong to the
  repository's own fixed algorithms (the `\b[a-zA-Z]\x7b3,\x7d\b` word
  tokenizer, sentence splitting on `[.!?]+`, whitespace splitting, …)
  are implemented concretely.
* Stateful caches are modelled by explicit state passing where a claim is
  about them (the validation cache of `grammar-validation.ts`); caches
  that are pure memoisation layers for the purposes of a claim are
  modelled as the pure recomputation they memoise.
-/

/-- JavaScript strings, as lists of their character units. -/
abbrev Str : Type := List Char

/-- Length of a modelled string. -/
def Str.len (s : Str) : Nat := List.length s

/-- The apostrophe character (U+0027), used when building string constants. -/
def apos : Char := Char.ofNat 39

/-- JS `\s` for the ASCII range (space, tab, LF, VT, FF, CR). -/
def isWsChar (c : Char) : Bool :=
  c = ' ' || c = Char.ofNat 9 || c = Char.ofNat 10 || c = Char.ofNat 11 ||
  c = Char.ofNat 12 || c = Char.ofNat 13

/-- JS `\w`: ASCII letters, digits and underscore. -/
def isWordChar (c : Char) : Bool :=
  (('a' ≤ c && c ≤ 'z') || ('A' ≤ c && c ≤ 'Z') || ('0' ≤ c && c ≤ '9') || c = '_')

/-- ASCII letters, the character class `[a-zA-Z]`. -/
def isAlphaChar (c : Char) : Bool :=
  (('a' ≤ c && c ≤ 'z') || ('A' ≤ c && c ≤ 'Z'))

/-- Sentence-terminating punctuation, the character class `[.!?]`. -/
def isSentencePunct (c : Char) : Bool :=
  c = '.' || c = '!' || c = '?'

/-- ASCII lower-casing of one character (JS `toLowerCase` on ASCII input). -/
def jsLowerChar (c : Char) : Char :=
  if 'A' ≤ c && c ≤ 'Z' then Char.ofNat (c.toNat + 32) else c

/-- ASCII upper-casing of one character (JS `toUpperCase` on ASCII input). -/
def jsUpperChar (c : Char) : Char :=
  if 'a' ≤ c && c ≤ 'z' then Char.ofNat (c.toNat - 32) else c

/-- JS `String.prototype.toLowerCase` (ASCII fragment). -/
def jsToLower (s : Str) : Str := List.map jsLowerChar s

/-- JS `String.prototype.trim` (ASCII whitespace). -/
def jsTrim (s : Str) : Str :=
  ((List.dropWhile (fun c => isWsChar c) s).reverse.dropWhile (fun c => isWsChar c)).reverse

/-- JS `s.slice(a, b)` / `s.substring(a, b)` for already-clamped indices
`a ≤ b` (every call site in the embedded code passes such indices, using
`Math.max`/`Math.min` where needed). -/
def jsSub (s : Str) (a b : Nat) : Str := List.take (b - a) (List.drop a s)

/-- JS `s.substring(a)` — the suffix from index `a`. -/
def jsSubFrom (s : Str) (a : Nat) : Str := List.drop a s

/-- Whether `p` occurs at the very start (JS `startsWith`). -/
def strStarts (s p : Str) : Bool := List.isPrefixOf p s

/-- Whether `p` occurs at the very end (JS `endsWith`). -/
def strEnds (s p : Str) : Bool := List.isSuffixOf p s

/-- Whether `p` occurs anywhere in `s` (JS `includes`). -/
def strContains (s p : Str) : Bool :=
  List.any (List.tails s) (fun t => List.isPrefixOf p t)

mutual

/-- Splitting scan, outside a separator run: accumulate the current token
(reversed) until a separator is hit, then emit it. -/
def jsSplitGo (sep : Char → Bool) : Str → Str → List Str
  | [], cur => [List.reverse cur]
  | c :: rest, cur =>
      if sep c then List.reverse cur :: jsSplitSkip sep rest
      else jsSplitGo sep rest (c :: cur)

/-- Splitting scan, inside a separator run: consume the rest of the run. -/
def jsSplitSkip (sep : Char → Bool) : Str → List Str
  | [] => [[]]
  | c :: rest => if sep c then jsSplitSkip sep rest else jsSplitGo sep rest [c]

end

/-- JS `s.split(re)` where `re` matches maximal non-empty runs of characters
satisfying `sep` (e.g. `/\s+/`, `/[.!?]+/`).  Faithful to JS semantics:
leading/trailing separator runs contribute empty tokens. -/
def jsSplit (sep : Char → Bool) (s : Str) : List Str := jsSplitGo sep s []

/-- The `words` of a text in the sense of JS `text.split(/\s+/)`. -/
def jsSplitWs (s : Str) : List Str := jsSplit (fun c => isWsChar c) s

/-- Decimal digits of a natural number, fuel-based so that the kernel can
evaluate it (the fuel always suffices: a number needs fewer digits than
its own magnitude). -/
def natDigitsAux : Nat → Nat → Str → Str
  | 0, _, acc => acc
  | fuel + 1, n, acc =>
      if n = 0 then acc
      else natDigitsAux fuel (n / 10) (Char.ofNat (n % 10 + 48) :: acc)

/-- JS `String(n)` for a natural number. -/
def natToStr (n : Nat) : Str :=
  if n = 0 then ['0'] else natDigitsAux (n + 1) n []

section FracDefs

/-!
### Exact rational arithmetic for embedded JS numbers

JS `number` values flowing through the validation pipeline are modelled as
exact unnormalised fractions (`Frac`), so that the kernel can evaluate
them (Lean's `ℚ` normalises through `Nat.gcd`, which blocks kernel
reduction).  A `Frac` denotes `num / den`; every value built by the
embedded code has a positive denominator.  `Frac.val` interprets a `Frac`
in `ℚ`, and the lemmas below show the boolean comparisons agree with the
rational ones, so this is just rational arithmetic in another basis.
-/

/-- An unnormalised fraction `num / den`. -/
structure Frac where
  num : Int
  den : Nat
deriving DecidableEq, Repr

/-- Embed a natural number. -/
def Frac.ofNat (n : Nat) : Frac := ⟨n, 1⟩

/-- A decimal constant `m / 10^k`-style literal: `Frac.mk10 m d` is `m / d`. -/
def Frac.mk10 (m : Int) (d : Nat) : Frac := ⟨m, d⟩

/-- Multiplication (JS `*`). -/
def Frac.mul (a b : Frac) : Frac := ⟨a.num * b.num, a.den * b.den⟩

/-- Strict comparison (JS `<`), by cross-multiplication. -/
def Frac.blt (a b : Frac) : Bool := a.num * b.den < b.num * a.den

/-- Non-strict comparison (JS `<=`), by cross-multiplication. -/
def Frac.ble (a b : Frac) : Bool := a.num * b.den ≤ b.num * a.den

/-- JS `Math.max`. -/
def Frac.bmax (a b : Frac) : Frac := if Frac.ble a b then b else a

/-- JS `Math.min`. -/
def Frac.bmin (a b : Frac) : Frac := if Frac.ble a b then a else b

/-- The rational value of a fraction. -/
def Frac.val (a : Frac) : ℚ := (a.num : ℚ) / (a.den : ℚ)

end FracDefs

section OverlapResolution

/-!
### `GrammarEngine` error records and overlap resolution

From `grammar-engine.ts` (`GrammarError`, `removeOverlappingErrors`,
`doErrorsOverlap`) — display-only string fields (`message`,
`shortMessage`, `examples`) are carried by the source records but are
never read by any algorithm or claim and are omitted from the embedding.
-/

/-- The three suggestion kinds. -/
inductive SuggKind where
  | grammar
  | spelling
  | style
deriving DecidableEq, Repr

/-- Validation risk labels (`'SAFE' | 'MODERATE' | 'RISKY'`). -/
inductive RiskLabel where
  | SAFE
  | MODERATE
  | RISKY
deriving DecidableEq, Repr

/-- `GrammarError` of `grammar-engine.ts` (algorithmically relevant fields). -/
structure GrammarError where
  type : SuggKind
  ruleId : Str
  category : Str
  confidence : Frac
  offset : Nat
  length : Nat
  text : Str
  replacement : Str
  context : Str
  suggestionsList : Option (List Str) := none
  validated : Option Bool := none
  validationRisk : Option RiskLabel := none
deriving DecidableEq

/-- `GrammarEngine.doErrorsOverlap`: half-open ranges
`[offset, offset+length)` intersect. -/
def doErrorsOverlap (e1 e2 : GrammarError) : Bool :=
  !(decide (e1.offset + e1.length ≤ e2.offset) || decide (e2.offset + e2.length ≤ e1.offset))

/-- JS `Array.prototype.findIndex`, as an `Option`-valued index (`-1` of the
source corresponds to `none`; `Array.prototype.some` with the same predicate
is `Option.isSome` of this). -/
def jsFindIndex {α : Type} (p : α → Bool) : List α → Option Nat
  | [] => none
  | x :: xs => if p x then some 0 else Option.map (· + 1) (jsFindIndex p xs)

/-- The replacement arm of the `removeOverlappingErrors` loop body: `e` takes
the place of the overlapping entry at index `i` when it has strictly higher
confidence (ties keep the entry already in the list). -/
def resolveReplace (filtered : List GrammarError) (e : GrammarError) (i : Nat) :
    List GrammarError :=
  match filtered[i]? with
  | some x => if Frac.blt x.confidence e.confidence then filtered.set i e else filtered
  | none => filtered

/-- One iteration of the `removeOverlappingErrors` loop: insert `e` into the
already-filtered list, replacing the first overlapping entry if `e` has
strictly higher confidence. -/
def resolveStep (filtered : List GrammarError) (e : GrammarError) : List GrammarError :=
  match jsFindIndex (fun existing => doErrorsOverlap e existing) filtered with
  | none => filtered ++ [e]
  | some i => resolveReplace filtered e i

/-- `GrammarEngine.removeOverlappingErrors`. -/
def removeOverlappingErrors (errors : List GrammarError) : List GrammarError :=
  List.foldl resolveStep [] errors

/-- Stable insertion into a list sorted by `le` (new element goes after
`le`-equal ones). -/
def insSorted {α : Type} (le : α → α → Bool) (e : α) : List α → List α
  | [] => [e]
  | x :: xs => if le x e then x :: insSorted le e xs else e :: x :: xs

/-- Stable sort by insertion, the behaviour of the stable (ES2019)
JS `Array.prototype.sort` under a total comparator. -/
def jsSortBy {α : Type} (le : α → α → Bool) (l : List α) : List α :=
  List.foldl (fun acc e => insSorted le e acc) [] l

/-- `errors.sort((a, b) => a.offset - b.offset)` of `GrammarEngine.checkText`. -/
def sortByOffset (errors : List GrammarError) : List GrammarError :=
  jsSortBy (fun a b => a.offset ≤ b.offset) errors

end OverlapResolution

/-- Pairwise non-overlap, the invariant guaranteed by overlap resolution. -/
def NoOv (l : List GrammarError) : Prop :=
  List.Pairwise (fun a b => doErrorsOverlap a b = false) l

section Dictionary

/-!
### `DictionaryService` (`lib/dictionary.ts`)

`load` reads `lib/dictionaries/words_alpha.txt` once; a missing file is
modelled by `none`.  The `Set`/first-letter index pair is modelled by the
insertion-ordered word list itself (set membership = list membership,
set iteration order = insertion order; the backing word list is
duplicate-free) — `index.get(c)` is the sublist of words starting with `c`,
in insertion order, exactly as built by `load`.
-/

/-- JS `Math.abs(a - b)` for naturals. -/
def natDist (a b : Nat) : Nat := max a b - min a b

/-- The unit-cost Levenshtein recurrence (function `levenshtein` of
`lib/dictionary.ts`); fuel-based so that the kernel can evaluate it, the
fuel `a.length + b.length` always suffices. -/
def levFuel : Nat → Str → Str → Nat
  | 0, xs, ys => xs.length + ys.length
  | _ + 1, [], ys => ys.length
  | _ + 1, x :: xs, [] => (x :: xs).length
  | fuel + 1, x :: xs, y :: ys =>
      min (levFuel fuel xs (y :: ys) + 1)
        (min (levFuel fuel (x :: xs) ys + 1)
          (levFuel fuel xs ys + (if x = y then 0 else 1)))

/-- `levenshtein(a, b)` of `lib/dictionary.ts` (unit-cost DP). -/
def levDist (a b : Str) : Nat := levFuel (a.length + b.length) a b

/-- Dictionary state after `load` (`loaded` is always true afterwards). -/
structure DictState where
  words : List Str
  loaded : Bool

/-- `DictionaryService.load`: `none` models a missing
`words_alpha.txt` (the service warns and keeps an empty word set); the
file content is split into lines, trimmed, lower-cased, empty lines
dropped.  Splitting on `/\r?\n/` is modelled as splitting on `'\n'` —
any carriage return is removed by the subsequent `trim`. -/
def dictLoad (fileContent : Option Str) : DictState :=
  match fileContent with
  | none => { words := [], loaded := true }
  | some content =>
      { words :=
          (jsSplit (fun c => c = Char.ofNat 10) content).filterMap (fun w =>
            let word := jsToLower (jsTrim w)
            if word = [] then none else some word),
        loaded := true }

/-- `DictionaryService.isValid`: case-insensitive exact membership. -/
def dictIsValid (d : DictState) (word : Str) : Bool :=
  List.contains d.words (jsToLower word)

/-- The length-≤2 / distance-1..2 candidate scan (the `consider` closure of
`DictionaryService.suggestions`), keeping `(word, distance)` pairs in
iteration order. -/
def considerList (word : Str) (list : List Str) : List (Str × Nat) :=
  List.filterMap (fun cand =>
    if 2 < natDist cand.length word.length then none
    else
      let d := levDist word cand
      if 0 < d ∧ d ≤ 2 then some (cand, d) else none) list

/-- The broadening loop of `DictionaryService.suggestions` (step 2): iterate
the whole vocabulary with a ±1 length filter, skipping words already found,
stopping once `limit * 2` results are collected.  The `continue` branches
skip the stop check, exactly as in the source. -/
def broadenLoop (word : Str) (limit : Nat) :
    List Str → List (Str × Nat) → List (Str × Nat)
  | [], results => results
  | cand :: rest, results =>
      if List.any results (fun r => r.1 = cand) then broadenLoop word limit rest results
      else if 1 < natDist cand.length word.length then broadenLoop word limit rest results
      else
        let d := levDist word cand
        let results2 := if 0 < d ∧ d ≤ 2 then results ++ [(cand, d)] else results
        if limit * 2 ≤ results2.length then results2
        else broadenLoop word limit rest results2

/-- `localeCompare` on plain lowercase ASCII words agrees with code-point
lexicographic comparison; `lexLe a b` models `a.localeCompare(b) <= 0`. -/
def lexLe : Str → Str → Bool
  | [], _ => true
  | _ :: _, [] => false
  | a :: as, b :: bs => if a = b then lexLe as bs else decide (a < b)

/-- The comparator `(a, b) => a.d !== b.d ? a.d - b.d : a.w.localeCompare(b.w)`
as a total boolean `≤`. -/
def suggLe (a b : Str × Nat) : Bool :=
  if a.2 = b.2 then lexLe a.1 b.1 else decide (a.2 < b.2)

/-- The complete `results` list collected by `DictionaryService.suggestions`
(primary first-letter candidates, then — if fewer than `limit` — the
broadening pass), before sorting and truncation. -/
def dictSuggestionsResults (d : DictState) (input : Str) (limit : Nat) : List (Str × Nat) :=
  let word := jsToLower input
  let candidates :=
    match word.head? with
    | none => ([] : List Str)
    | some f => List.filter (fun w => w.head? = some f) d.words
  let results := considerList word candidates
  if results.length < limit then broadenLoop word limit d.words results else results

/-- `DictionaryService.suggestions(input, limit)`: collect, sort by
(distance, lexicographic), truncate to `limit`, keep the words. -/
def dictSuggestions (d : DictState) (input : Str) (limit : Nat) : List Str :=
  List.map Prod.fst (List.take limit (jsSortBy suggLe (dictSuggestionsResults d input limit)))

end Dictionary

section EnhancedSpellingEngineDefs

/-!
### `EnhancedSpellingEngine.calculateContextScore` (`lib/enhanced-spelling-engine`)

The fixed `COMMON_BIGRAMS` table and the context-relevance scoring
dimension of the enhanced spelling ranker.
-/

/-- The fixed `COMMON_BIGRAMS` table. -/
def commonBigrams : List (Str × List Str) :=
  [ (("what".data),
      [("is".data), ("are".data), ("was".data), ("were".data), ("do".data), ("does".data),
        ("did".data), ("about".data), ("if".data), ("when".data)]),
    (("how".data),
      [("are".data), ("is".data), ("do".data), ("does".data), ("can".data), ("could".data),
        ("would".data), ("to".data), ("about".data), ("much".data)]),
    (("where".data),
      [("is".data), ("are".data), ("was".data), ("were".data), ("do".data), ("does".data),
        ("did".data), ("to".data), ("can".data)]),
    (("when".data),
      [("is".data), ("are".data), ("was".data), ("were".data), ("do".data), ("does".data),
        ("did".data), ("to".data), ("can".data)]),
    (("why".data),
      [("is".data), ("are".data), ("was".data), ("were".data), ("do".data), ("does".data),
        ("did".data), ("not".data), ("would".data)]),
    (("who".data),
      [("is".data), ("are".data), ("was".data), ("were".data), ("do".data), ("does".data),
        ("did".data), ("can".data), ("would".data)]) ]

/-- `COMMON_BIGRAMS[w]` — `none` models JS `undefined`. -/
def bigramLookup (w : Str) : Option (List Str) :=
  Option.map Prod.snd (List.find? (fun p => p.1 = w) commonBigrams)

/-- One iteration of the `calculateContextScore` loop body (the
`bigramTargets && bigramTargets.includes(...)` truthiness check:
an absent table entry leaves the running maximum unchanged). -/
def contextScoreStep (candidate : Str) (maxScore : ℚ) (contextWord : Str) : ℚ :=
  Option.elim (bigramLookup (jsToLower candidate)) maxScore (fun targets =>
    if List.contains targets (jsToLower contextWord) then max maxScore 1 else maxScore)

/-- `EnhancedSpellingEngine.calculateContextScore(candidate, contextWords)`. -/
def calculateContextScore (candidate : Str) (contextWords : List Str) : ℚ :=
  if contextWords = [] then 1/2
  else List.foldl (contextScoreStep candidate) 0 contextWords

end EnhancedSpellingEngineDefs


section GrammarContextDefs

/-!
### Sentence / context analysis (`lib/grammar-context.ts`)

`splitIntoSentences` scans for the regex `/([.!?]+)(\s+|$)/g`: the matches
of that pattern are exactly the maximal runs of sentence punctuation that
are followed by whitespace or the end of input (a shorter suffix of a run
can never match, since it would have to be followed by another punctuation
character), and the trailing `\s+` group is consumed greedily before the
scan resumes.  `getCachedSentenceBoundaries` is a pure memoisation of
`splitIntoSentences` and is modelled by the function itself.
-/

/-- The fixed `COMMON_ABBREVIATIONS` set of `lib/grammar-context.ts`. -/
def commonAbbreviations : List Str :=
  [ ("dr".data),
    ("mr".data),
    ("mrs".data),
    ("ms".data),
    ("prof".data),
    ("vs".data),
    ("etc".data),
    ("inc".data),
    ("ltd".data),
    ("corp".data),
    ("st".data),
    ("ave".data),
    ("blvd".data),
    ("rd".data),
    ("apt".data),
    ("no".data),
    ("vol".data),
    ("pp".data),
    ("ch".data),
    ("sec".data),
    ("fig".data),
    ("ref".data),
    ("eg".data),
    ("ie".data),
    ("cf".data),
    ("al".data),
    ("ed".data),
    ("eds".data),
    ("rev".data),
    ("est".data),
    ("approx".data),
    ("min".data),
    ("max".data),
    ("avg".data),
    ("temp".data),
    ("dept".data),
    ("govt".data),
    ("assn".data),
    ("bros".data),
    ("co".data),
    ("jr".data),
    ("sr".data),
    ("phd".data),
    ("md".data),
    ("ba".data),
    ("ma".data),
    ("bs".data),
    ("ms".data) ]

/-- The `fragmentStarters` list of `isFragment`. -/
def fragmentStarters : List Str :=
  [ ("because".data),
    ("since".data),
    ("although".data),
    ("though".data),
    ("while".data),
    ("whereas".data),
    ("if".data),
    ("unless".data),
    ("until".data),
    ("when".data),
    ("where".data),
    ("after".data),
    ("before".data),
    ("as".data),
    ("than".data),
    ("that".data),
    ("which".data),
    ("who".data),
    ("whom".data),
    ("whose".data) ]

/-- The `pronouns` list of `hasBasicSubject`. -/
def subjectPronouns : List Str :=
  [ ("i".data),
    ("you".data),
    ("he".data),
    ("she".data),
    ("it".data),
    ("we".data),
    ("they".data),
    ("this".data),
    ("that".data),
    ("these".data),
    ("those".data) ]

/-- The `articles` list of `hasBasicSubject`. -/
def subjectArticles : List Str :=
  [ ("the".data),
    ("a".data),
    ("an".data) ]

/-- The `possessives` list of `hasBasicSubject`. -/
def subjectPossessives : List Str :=
  [ ("my".data),
    ("your".data),
    ("his".data),
    ("her".data),
    ("its".data),
    ("our".data),
    ("their".data) ]

/-- The `commonVerbs` list of `hasBasicVerb`. -/
def commonVerbs : List Str :=
  [ ("is".data),
    ("are".data),
    ("was".data),
    ("were".data),
    ("am".data),
    ("be".data),
    ("been".data),
    ("being".data),
    ("have".data),
    ("has".data),
    ("had".data),
    ("having".data),
    ("do".data),
    ("does".data),
    ("did".data),
    ("doing".data),
    ("will".data),
    ("would".data),
    ("could".data),
    ("should".data),
    ("might".data),
    ("may".data),
    ("can".data),
    ("go".data),
    ("goes".data),
    ("went".data),
    ("going".data),
    ("get".data),
    ("gets".data),
    ("got".data),
    ("getting".data),
    ("make".data),
    ("makes".data),
    ("made".data),
    ("making".data),
    ("take".data),
    ("takes".data),
    ("took".data),
    ("taking".data),
    ("come".data),
    ("comes".data),
    ("came".data),
    ("coming".data),
    ("see".data),
    ("sees".data),
    ("saw".data),
    ("seeing".data),
    ("know".data),
    ("knows".data),
    ("knew".data),
    ("knowing".data),
    ("think".data),
    ("thinks".data),
    ("thought".data),
    ("thinking".data),
    ("want".data),
    ("wants".data),
    ("wanted".data),
    ("wanting".data),
    ("need".data),
    ("needs".data),
    ("needed".data),
    ("needing".data),
    ("receive".data),
    ("receives".data),
    ("received".data),
    ("receiving".data),
    ("give".data),
    ("gives".data),
    ("gave".data),
    ("giving".data),
    ("find".data),
    ("finds".data),
    ("found".data),
    ("finding".data),
    ("feel".data),
    ("feels".data),
    ("felt".data),
    ("feeling".data),
    ("work".data),
    ("works".data),
    ("worked".data),
    ("working".data),
    ("use".data),
    ("uses".data),
    ("used".data),
    ("using".data),
    ("show".data),
    ("shows".data),
    ("showed".data),
    ("showing".data),
    ("tell".data),
    ("tells".data),
    ("told".data),
    ("telling".data),
    ("ask".data),
    ("asks".data),
    ("asked".data),
    ("asking".data),
    ("try".data),
    ("tries".data),
    ("tried".data),
    ("trying".data),
    ("help".data),
    ("helps".data),
    ("helped".data),
    ("helping".data),
    ("play".data),
    ("plays".data),
    ("played".data),
    ("playing".data),
    ("move".data),
    ("moves".data),
    ("moved".data),
    ("moving".data),
    ("live".data),
    ("lives".data),
    ("lived".data),
    ("living".data),
    ("believe".data),
    ("believes".data),
    ("believed".data),
    ("believing".data),
    ("hold".data),
    ("holds".data),
    ("held".data),
    ("holding".data),
    ("bring".data),
    ("brings".data),
    ("brought".data),
    ("bringing".data),
    ("happen".data),
    ("happens".data),
    ("happened".data),
    ("happening".data),
    ("write".data),
    ("writes".data),
    ("wrote".data),
    ("writing".data),
    ("provide".data),
    ("provides".data),
    ("provided".data),
    ("providing".data),
    ("sit".data),
    ("sits".data),
    ("sat".data),
    ("sitting".data),
    ("stand".data),
    ("stands".data),
    ("stood".data),
    ("standing".data),
    ("lose".data),
    ("loses".data),
    ("lost".data),
    ("losing".data),
    ("pay".data),
    ("pays".data),
    ("paid".data),
    ("paying".data),
    ("meet".data),
    ("meets".data),
    ("met".data),
    ("meeting".data),
    ("include".data),
    ("includes".data),
    ("included".data),
    ("including".data),
    ("continue".data),
    ("continues".data),
    ("continued".data),
    ("continuing".data),
    ("set".data),
    ("sets".data),
    ("setting".data),
    ("learn".data),
    ("learns".data),
    ("learned".data),
    ("learning".data),
    ("change".data),
    ("changes".data),
    ("changed".data),
    ("changing".data),
    ("lead".data),
    ("leads".data),
    ("led".data),
    ("leading".data),
    ("understand".data),
    ("understands".data),
    ("understood".data),
    ("understanding".data),
    ("watch".data),
    ("watches".data),
    ("watched".data),
    ("watching".data),
    ("follow".data),
    ("follows".data),
    ("followed".data),
    ("following".data),
    ("stop".data),
    ("stops".data),
    ("stopped".data),
    ("stopping".data),
    ("create".data),
    ("creates".data),
    ("created".data),
    ("creating".data),
    ("speak".data),
    ("speaks".data),
    ("spoke".data),
    ("speaking".data),
    ("read".data),
    ("reads".data),
    ("reading".data),
    ("allow".data),
    ("allows".data),
    ("allowed".data),
    ("allowing".data),
    ("add".data),
    ("adds".data),
    ("added".data),
    ("adding".data),
    ("spend".data),
    ("spends".data),
    ("spent".data),
    ("spending".data),
    ("grow".data),
    ("grows".data),
    ("grew".data),
    ("growing".data),
    ("open".data),
    ("opens".data),
    ("opened".data),
    ("opening".data),
    ("walk".data),
    ("walks".data),
    ("walked".data),
    ("walking".data),
    ("win".data),
    ("wins".data),
    ("won".data),
    ("winning".data),
    ("offer".data),
    ("offers".data),
    ("offered".data),
    ("offering".data),
    ("remember".data),
    ("remembers".data),
    ("remembered".data),
    ("remembering".data),
    ("love".data),
    ("loves".data),
    ("loved".data),
    ("loving".data),
    ("consider".data),
    ("considers".data),
    ("considered".data),
    ("considering".data),
    ("appear".data),
    ("appears".data),
    ("appeared".data),
    ("appearing".data),
    ("buy".data),
    ("buys".data),
    ("bought".data),
    ("buying".data),
    ("wait".data),
    ("waits".data),
    ("waited".data),
    ("waiting".data),
    ("serve".data),
    ("serves".data),
    ("served".data),
    ("serving".data),
    ("die".data),
    ("dies".data),
    ("died".data),
    ("dying".data),
    ("send".data),
    ("sends".data),
    ("sent".data),
    ("sending".data),
    ("expect".data),
    ("expects".data),
    ("expected".data),
    ("expecting".data),
    ("build".data),
    ("builds".data),
    ("built".data),
    ("building".data),
    ("stay".data),
    ("stays".data),
    ("stayed".data),
    ("staying".data),
    ("fall".data),
    ("falls".data),
    ("fell".data),
    ("falling".data),
    ("cut".data),
    ("cuts".data),
    ("cutting".data),
    ("reach".data),
    ("reaches".data),
    ("reached".data),
    ("reaching".data),
    ("kill".data),
    ("kills".data),
    ("killed".data),
    ("killing".data),
    ("remain".data),
    ("remains".data),
    ("remained".data),
    ("remaining".data) ]


/-- Sentence position labels (`SentencePosition`). -/
inductive SentencePos where
  | start
  | middle
  | penEnd
  | standalone
deriving DecidableEq, Repr

/-- `SentenceBoundary` records (`end` is a Lean keyword, stored as
`stop`). -/
structure SentenceBoundary where
  start : Nat
  stop : Nat
  text : Str
  isComplete : Bool
  isFragment : Bool
deriving DecidableEq, Repr

/-- Scanner for `/([.!?]+)(\s+|$)/g`: yields `(index, index + run length)`
per match and resumes after the greedily consumed whitespace.  Fuel-based
(each step consumes at least one character, so fuel = length suffices) so
that the kernel can evaluate it. -/
def spmGo : Nat → Str → Nat → List (Nat × Nat)
  | 0, _, _ => []
  | _ + 1, [], _ => []
  | fuel + 1, c :: rest, i =>
      if isSentencePunct c then
        let n := (List.takeWhile isSentencePunct rest).length + 1
        match List.head? (List.drop (n - 1) rest) with
        | none => [(i, i + n)]
        | some d =>
            if isWsChar d then
              let wsLen := (List.takeWhile isWsChar (List.drop n rest)).length
              (i, i + n) :: spmGo fuel (List.drop (n + wsLen) rest) (i + n + 1 + wsLen)
            else spmGo fuel (List.drop (n - 1) rest) (i + n)
      else spmGo fuel rest (i + 1)

/-- The matches of `/([.!?]+)(\s+|$)/g` over a text. -/
def sentencePunctMatches (text : Str) : List (Nat × Nat) := spmGo text.length text 0

/-- Last char of a string satisfies a predicate (`/[.!?]$/.test`). -/
def lastCharIs (p : Char → Bool) (s : Str) : Bool :=
  match List.getLast? s with
  | some c => p c
  | none => false

/-- `isCompleteSentence` of `lib/grammar-context.ts`: must end in sentence
punctuation, have length ≥ 3 and at least two whitespace-separated words;
all the sentence-starter checks of the source, and its fall-through, return
`true`, so the function reduces to this conjunction. -/
def isCompleteSentence (text : Str) : Bool :=
  let trimmed := jsTrim text
  if ¬ lastCharIs isSentencePunct trimmed then false
  else if trimmed.length < 3 then false
  else
    let words := jsSplitWs (jsToLower trimmed)
    if words.length < 2 then false
    else true

/-- `isFragment` of `lib/grammar-context.ts`. -/
def isFragment (text : Str) : Bool :=
  let trimmed := jsTrim text
  if trimmed.length < 3 then true
  else if ¬ lastCharIs isSentencePunct trimmed then true
  else
    let firstWord := List.headD (jsSplitWs (jsToLower trimmed)) []
    if List.contains fragmentStarters firstWord then true
    else ¬ isCompleteSentence text

/-- Build one `SentenceBoundary`. -/
def mkBoundary (start stop : Nat) (text : Str) : SentenceBoundary :=
  { start := start, stop := stop, text := text,
    isComplete := isCompleteSentence text, isFragment := isFragment text }

/-- The match-processing loop of `splitIntoSentences`: abbreviation-aware
commit of sentence boundaries (state: `lastEnd`, accumulated boundaries). -/
def sentencesFold (text : Str) :
    List (Nat × Nat) → Nat → List SentenceBoundary → (Nat × List SentenceBoundary)
  | [], lastEnd, acc => (lastEnd, acc)
  | (idx, endPos) :: rest, lastEnd, acc =>
      let beforePunct := jsSub text (idx - 10) idx
      let run := List.reverse (List.takeWhile isWordChar (List.reverse beforePunct))
      if run ≠ [] ∧
          (List.contains commonAbbreviations (jsToLower run) = true ∨ run.length = 1) then
        sentencesFold text rest lastEnd acc
      else
        let sentenceText := jsTrim (jsSub text lastEnd endPos)
        if 0 < sentenceText.length then
          sentencesFold text rest endPos (acc ++ [mkBoundary lastEnd endPos sentenceText])
        else
          sentencesFold text rest lastEnd acc

/-- `splitIntoSentences` of `lib/grammar-context.ts`. -/
def splitIntoSentences (text : Str) : List SentenceBoundary :=
  let r := sentencesFold text (sentencePunctMatches text) 0 []
  let lastEnd := r.1
  let sentences := r.2
  if lastEnd < text.length then
    let remainingText := jsTrim (jsSubFrom text lastEnd)
    if 0 < remainingText.length then
      sentences ++ [mkBoundary lastEnd text.length remainingText]
    else sentences
  else sentences

/-- `getSentencePosition(text, offset)`: bucket the offset inside its owning
sentence — first 10% (but at least 1) → start, last 10% → end, otherwise
middle; no owning sentence → standalone.  `0.1` and `0.9` are modelled as
the exact rationals they stand for (the comparisons are against integer
`relativePos` values, for which IEEE-754 evaluation agrees). -/
def getSentencePosition (text : Str) (offset : Nat) : SentencePos :=
  match List.find? (fun s => decide (s.start ≤ offset ∧ offset ≤ s.stop))
      (splitIntoSentences text) with
  | some sentence =>
      let relativePos := Frac.ofNat (offset - sentence.start)
      let sentenceLength := Frac.ofNat (sentence.stop - sentence.start)
      let startThreshold := Frac.bmax (Frac.ofNat 1) (Frac.mul sentenceLength (Frac.mk10 1 10))
      let endThreshold := Frac.mul sentenceLength (Frac.mk10 9 10)
      if Frac.ble relativePos startThreshold then SentencePos.start
      else if Frac.ble endThreshold relativePos then SentencePos.penEnd
      else SentencePos.middle
  | none => SentencePos.standalone

/-- JS `Array.prototype.slice(a, b)` (for nonnegative clamped indices). -/
def listSlice {α : Type} (l : List α) (a b : Nat) : List α :=
  List.take (b - a) (List.drop a l)

/-- The word-locating loop of `extractWordsAroundPosition`: position
arithmetic assumes single-space separation (`currentPos = wordEnd + 1`),
exactly as the source does. -/
def ewapFind (offset : Nat) : List Str → Nat → Nat → Option Nat
  | [], _, _ => none
  | w :: ws, pos, i =>
      if pos ≤ offset ∧ offset ≤ pos + w.length then some i
      else ewapFind offset ws (pos + w.length + 1) (i + 1)

/-- `extractWordsAroundPosition(text, offset, wordCount = 3)`. -/
def extractWordsAroundPosition (text : Str) (offset : Nat) (wordCount : Nat := 3) :
    (List Str × List Str) :=
  let words := jsSplitWs text
  match ewapFind offset words 0 0 with
  | none => ([], [])
  | some i =>
      (listSlice words (i - wordCount) i, listSlice words (i + 1) (i + 1 + wordCount))

/-- Index (within the list) of the last occurrence of a character. -/
def lastIdxOf (c : Char) (l : Str) : Option Nat :=
  match jsFindIndex (fun x => x = c) (List.reverse l) with
  | some k => some (l.length - 1 - k)
  | none => none

/-- Scanner for `/\n\s*\n/g` (paragraph breaks): at a newline, the greedy
`\s*` backtracks to the last newline inside the maximal whitespace run; the
match ends right after that newline.  Yields the end position of each
match, as collected into `breaks`. -/
def pbGo : Nat → Str → Nat → List Nat
  | 0, _, _ => []
  | _ + 1, [], _ => []
  | fuel + 1, c :: rest, i =>
      if c = Char.ofNat 10 then
        let wsRun := List.takeWhile isWsChar rest
        match lastIdxOf (Char.ofNat 10) wsRun with
        | some j =>
            let matchEnd := i + j + 2
            matchEnd :: pbGo fuel (List.drop (j + 1) rest) matchEnd
        | none => pbGo fuel rest (i + 1)
      else pbGo fuel rest (i + 1)

/-- Pick the paragraph interval containing `offset` out of the breaks. -/
def findParaInterval (offset : Nat) : List Nat → Option (Nat × Nat)
  | b1 :: b2 :: rest =>
      if b1 ≤ offset ∧ offset < b2 then some (b1, b2)
      else findParaInterval offset (b2 :: rest)
  | _ => none

/-- `findParagraphBoundaries(text, offset)`. -/
def findParagraphBoundaries (text : Str) (offset : Nat) : (Nat × Nat × Str) :=
  let breaks := 0 :: (pbGo text.length text 0 ++ [text.length])
  match findParaInterval offset breaks with
  | some (a, b) => (a, b, jsTrim (jsSub text a b))
  | none => (0, text.length, jsTrim text)

/-- JS `Array.prototype.join(sep)`. -/
def strJoin (sep : Str) : List Str → Str
  | [] => []
  | [x] => x
  | x :: xs => x ++ sep ++ strJoin sep xs

/-- `ContextMetadata` of `lib/grammar-context.ts`. -/
structure ContextMetadata where
  sentencePosition : SentencePos
  sentenceBoundary : SentenceBoundary
  paragraphStart : Nat
  paragraphEnd : Nat
  wordsBefore : List Str
  wordsAfter : List Str
deriving DecidableEq, Repr

/-- `buildContextMetadata(text, offset, length)` — the `length` argument is
accepted but never read, exactly as in the source. -/
def buildContextMetadata (text : Str) (offset : Nat) (_length : Nat) : ContextMetadata :=
  let sentencePosition := getSentencePosition text offset
  let sentences := splitIntoSentences text
  let sentenceBoundary :=
    Option.getD (List.find? (fun s => decide (s.start ≤ offset ∧ offset ≤ s.stop)) sentences)
      { start := 0, stop := text.length, text := text, isComplete := false, isFragment := true }
  let paragraph := findParagraphBoundaries text offset
  let surrounding := extractWordsAroundPosition text offset 3
  { sentencePosition := sentencePosition,
    sentenceBoundary := sentenceBoundary,
    paragraphStart := paragraph.1,
    paragraphEnd := paragraph.2.1,
    wordsBefore := surrounding.1,
    wordsAfter := surrounding.2 }

/-- Result of `analyzeMultiSentenceContext`. -/
structure MultiSentenceContext where
  sentences : List SentenceBoundary
  isMultiSentence : Bool
  hasCompleteSpan : Bool
  fragmentsIncluded : Bool
deriving DecidableEq, Repr

/-- `analyzeMultiSentenceContext(text, startOffset, endOffset)`
(`getCachedSentenceBoundaries` is pure memoisation of
`splitIntoSentences` and is modelled by it). -/
def analyzeMultiSentenceContext (text : Str) (startOffset endOffset : Nat) :
    MultiSentenceContext :=
  let sentences := splitIntoSentences text
  let affected := List.filter
    (fun s => !(decide (s.stop < startOffset) || decide (endOffset < s.start))) sentences
  let isMulti : Bool := decide (1 < affected.length)
  let hasCompleteSpan : Bool :=
    match affected.head?, List.getLast? affected with
    | some f, some l => decide (startOffset ≤ f.start) && decide (l.stop ≤ endOffset)
    | _, _ => false
  let fragments := List.any affected (fun s => s.isFragment)
  { sentences := affected, isMultiSentence := isMulti,
    hasCompleteSpan := hasCompleteSpan, fragmentsIncluded := fragments }

/-- Result of `validateSentenceCompleteness`. -/
structure CompletenessResult where
  isComplete : Bool
  hasSubject : Bool
  hasVerb : Bool
  issues : List Str
deriving DecidableEq, Repr

/-- `/^[A-Z][a-z]+$/` — a capitalised word of length ≥ 2. -/
def properNounTest (w : Str) : Bool :=
  match w with
  | [] => false
  | c :: rest => ('A' ≤ c && c ≤ 'Z') && rest ≠ [] && List.all rest (fun d => 'a' ≤ d && d ≤ 'z')

/-- The indexed scan of `hasBasicSubject`: inspect the first
`min 3 total` words for subject indicators. -/
def hbsGo (total : Nat) : List Str → Nat → Bool
  | [], _ => false
  | w :: ws, i =>
      if min 3 total ≤ i then false
      else if List.contains subjectPronouns w then true
      else if List.contains subjectArticles w && decide (i + 1 < total) then true
      else if List.contains subjectPossessives w && decide (i + 1 < total) then true
      else if properNounTest w && (decide (0 < i) || decide (1 < total)) then true
      else hbsGo total ws (i + 1)

/-- `hasBasicSubject(words)` — note the words it receives are already
lower-cased by `validateSentenceCompleteness`, so the proper-noun branch
can never fire there, exactly as in the source. -/
def hasBasicSubject (words : List Str) : Bool :=
  match words with
  | [] => false
  | _ => hbsGo words.length words 0

/-- One word's verb test in `hasBasicVerb`. -/
def isVerbWord (w : Str) : Bool :=
  List.contains commonVerbs w ||
  (strEnds w ("ed".data) && decide (3 < w.length)) ||
  (strEnds w ("ing".data) && decide (4 < w.length)) ||
  (strEnds w ("s".data) && decide (2 < w.length) && !(strEnds w ("ss".data)))

/-- `hasBasicVerb(words)`. -/
def hasBasicVerb (words : List Str) : Bool := List.any words isVerbWord

/-- `validateSentenceCompleteness(text)`. -/
def validateSentenceCompleteness (text : Str) : CompletenessResult :=
  let trimmed := jsTrim text
  if trimmed = [] then
    { isComplete := false, hasSubject := false, hasVerb := false,
      issues := [("Empty text".data)] }
  else
    let endsPunct := lastCharIs isSentencePunct trimmed
    let issues0 : List Str :=
      if ¬ endsPunct then [("Missing sentence punctuation".data)] else []
    let words := jsSplitWs (jsToLower trimmed)
    let hasSubject := hasBasicSubject words
    let issues1 := issues0 ++ (if ¬ hasSubject then [("No clear subject found".data)] else [])
    let hasVerb := hasBasicVerb words
    let issues2 := issues1 ++ (if ¬ hasVerb then [("No clear verb found".data)] else [])
    let isComplete := issues2 = [] ∨ (hasSubject ∧ hasVerb ∧ endsPunct = true)
    { isComplete := isComplete, hasSubject := hasSubject, hasVerb := hasVerb,
      issues := issues2 }

/-- Result of `validateReplacement`. -/
structure ReplacementValidation where
  isValid : Bool
  newText : Str
  issues : List Str
  affectedSentences : List SentenceBoundary
deriving DecidableEq, Repr

/-- `validateReplacement(originalText, offset, length, replacement)` of
`lib/grammar-context.ts`. -/
def validateReplacement (originalText : Str) (offset length : Nat) (replacement : Str) :
    ReplacementValidation :=
  let newText := jsSub originalText 0 offset ++ replacement ++
    jsSubFrom originalText (offset + length)
  let context := analyzeMultiSentenceContext originalText offset (offset + length)
  let newContext := analyzeMultiSentenceContext newText offset (offset + replacement.length)
  let issues0 : List Str :=
    if context.sentences.length ≠ newContext.sentences.length then
      [("Replacement changes sentence structure".data)]
    else []
  let issues1 := issues0 ++ List.filterMap (fun s =>
    let validation := validateSentenceCompleteness s.text
    if ¬ validation.isComplete then
      some (("Incomplete sentence: ".data) ++ strJoin (", ".data) validation.issues)
    else none) newContext.sentences
  let replacementWords := jsSplitWs (jsToLower replacement)
  let contextBefore := jsToLower (jsSub originalText (offset - 20) offset)
  let contextAfter := jsToLower (jsSub originalText (offset + length)
    (min originalText.length (offset + length + 20)))
  let issues2 := issues1 ++
    (match replacementWords.head?, List.getLast? replacementWords with
    | some firstWord, some lastWord =>
        (if strEnds contextBefore (". ".data) && (firstWord = jsToLower firstWord : Bool) then
          [("Replacement should be capitalized after period".data)]
        else []) ++
        (if strStarts contextAfter (" ".data) && strEnds lastWord (".".data) then
          [("Replacement ends with period but continues in sentence".data)]
        else [])
    | _, _ => [])
  { isValid := issues2 = [], newText := newText, issues := issues2,
    affectedSentences := newContext.sentences }

end GrammarContextDefs

section GrammarValidationDefs

/-!
### Suggestion validation (`lib/grammar-validation.ts`)

`performValidation` and its cache wrapper `validateSuggestionInContext`.
The cache is the module-level `validationCache` `Map`, modelled as an
insertion-ordered association list with explicit state passing.
-/

/-- `SuggestionRisk` (`'safe' | 'moderate' | 'risky'`). -/
inductive SuggestionRisk where
  | safe
  | moderate
  | risky
deriving DecidableEq, Repr

/-- `SuggestionContext`. -/
structure SuggestionContext where
  originalText : Str
  offset : Nat
  length : Nat
  replacement : Str
  ruleId : Str
  ruleType : SuggKind
  originalConfidence : Frac
deriving DecidableEq, Repr

/-- `ValidationResult`. -/
structure ValidationResult where
  isValid : Bool
  risk : SuggestionRisk
  confidence : Frac
  issues : List Str
  suggestions : List Str
  contextQuality : Frac
deriving DecidableEq, Repr

/-- `assessContextQuality(metadata, originalText, offset, length)`:
multiplicative down/up-weighting, clamped to `[0.1, 1.0]`.  The document
boundary check `offset + length > originalText.length - 10` is JS signed
arithmetic, hence the `Int` comparison. -/
def assessContextQuality (metadata : ContextMetadata) (originalText : Str)
    (offset length : Nat) : Frac :=
  let q0 := Frac.ofNat 1
  let q1 := if metadata.sentenceBoundary.isFragment then Frac.mul q0 (Frac.mk10 6 10) else q0
  let q2 := if ¬ metadata.sentenceBoundary.isComplete then Frac.mul q1 (Frac.mk10 7 10) else q1
  let q3 :=
    if offset < 10 ∨ ((originalText.length : Int) - 10 < (offset + length : Nat)) then
      Frac.mul q2 (Frac.mk10 8 10)
    else q2
  let q4 :=
    if metadata.wordsBefore.length < 2 ∨ metadata.wordsAfter.length < 2 then
      Frac.mul q3 (Frac.mk10 7 10)
    else q3
  let q5 :=
    if metadata.sentencePosition = SentencePos.start ∨
        metadata.sentencePosition = SentencePos.middle then
      Frac.mul q4 (Frac.mk10 11 10)
    else q4
  Frac.bmax (Frac.mk10 1 10) (Frac.bmin (Frac.ofNat 1) q5)

/-- `assessSuggestionRisk(context, metadata, replacementValidation)`. -/
def assessSuggestionRisk (context : SuggestionContext) (metadata : ContextMetadata)
    (replacementValidation : ReplacementValidation) : SuggestionRisk :=
  if ¬ replacementValidation.isValid then SuggestionRisk.risky
  else if metadata.sentenceBoundary.isFragment ∧ context.ruleType = SuggKind.style then
    SuggestionRisk.risky
  else if context.replacement = [] ∧ metadata.sentencePosition = SentencePos.start then
    SuggestionRisk.risky
  else if metadata.sentencePosition = SentencePos.start ∧ context.ruleType = SuggKind.style then
    SuggestionRisk.moderate
  else if Frac.blt context.originalConfidence (Frac.mk10 7 10) then SuggestionRisk.moderate
  else SuggestionRisk.safe

/-- `adjustConfidenceBasedOnContext(originalConfidence, contextQuality, risk,
replacementValidation)`. -/
def adjustConfidenceBasedOnContext (originalConfidence contextQuality : Frac)
    (risk : SuggestionRisk) (replacementValid : Bool) : Frac :=
  let a0 := Frac.mul originalConfidence contextQuality
  let a1 :=
    match risk with
    | SuggestionRisk.risky => Frac.mul a0 (Frac.mk10 3 10)
    | SuggestionRisk.moderate => Frac.mul a0 (Frac.mk10 7 10)
    | SuggestionRisk.safe => Frac.mul a0 (Frac.mk10 11 10)
  let a2 := if ¬ replacementValid then Frac.mul a1 (Frac.mk10 2 10) else a1
  Frac.bmax (Frac.mk10 1 10) (Frac.bmin (Frac.ofNat 1) a2)

/-- `/^[A-Z]/.test(replacement)` — used as `replacement.match(/^[A-Z]/)`. -/
def startsWithUpper (s : Str) : Bool :=
  match s with
  | [] => false
  | c :: _ => 'A' ≤ c && c ≤ 'Z'

/-- `performValidation(context)` of `lib/grammar-validation.ts`. -/
def performValidation (context : SuggestionContext) : ValidationResult :=
  let replacementValidation :=
    validateReplacement context.originalText context.offset context.length context.replacement
  let contextMetadata := buildContextMetadata context.originalText context.offset context.length
  let contextQuality :=
    assessContextQuality contextMetadata context.originalText context.offset context.length
  let risk := assessSuggestionRisk context contextMetadata replacementValidation
  let adjustedConfidence := adjustConfidenceBasedOnContext context.originalConfidence
    contextQuality risk replacementValidation.isValid
  let issues0 := replacementValidation.issues
  let issues1 := issues0 ++
    (if Frac.blt contextQuality (Frac.mk10 5 10) then
      [("Low context quality - suggestion may be unreliable".data)]
    else [])
  let issues2 := issues1 ++
    (if contextMetadata.sentencePosition = SentencePos.start ∧
        ¬ startsWithUpper context.replacement then
      [("Replacement should be capitalized at sentence start".data)]
    else [])
  let sugg0 : List Str :=
    if risk = SuggestionRisk.risky then [("Consider manual review of this suggestion".data)]
    else []
  let sugg1 := sugg0 ++
    (if ¬ replacementValidation.isValid then [("Suggestion may break sentence structure".data)]
    else [])
  { isValid := replacementValidation.isValid ∧ risk ≠ SuggestionRisk.risky,
    risk := risk,
    confidence := adjustedConfidence,
    issues := issues2,
    suggestions := sugg1,
    contextQuality := contextQuality }

/-- `generateCacheKey(context)`:
`ruleId_offset_length_replacement_textLength` — note that only the LENGTH
of the original text enters the key, never its content.  The `||` fallbacks
of the source only matter for a falsy (empty) rule id. -/
def generateCacheKey (context : SuggestionContext) : Str :=
  let ruleId := if context.ruleId = [] then ("unknown".data) else context.ruleId
  ruleId ++ ("_".data) ++ natToStr context.offset ++ ("_".data) ++
    natToStr context.length ++ ("_".data) ++ context.replacement ++ ("_".data) ++
    natToStr context.originalText.length

/-- The validation cache: insertion-ordered key/value pairs. -/
abbrev ValidationCache : Type := List (Str × ValidationResult)

/-- JS `Map.prototype.get`. -/
def cacheGet (m : ValidationCache) (k : Str) : Option ValidationResult :=
  Option.map Prod.snd (List.find? (fun p => p.1 = k) m)

/-- JS `Map.prototype.set`: update in place if the key exists, else append. -/
def cacheSet (m : ValidationCache) (k : Str) (v : ValidationResult) : ValidationCache :=
  if List.any m (fun p => p.1 = k) then
    List.map (fun p => if p.1 = k then (k, v) else p) m
  else m ++ [(k, v)]

/-- `validateSuggestionInContext(context)` with the module-level
`validationCache` passed explicitly: serve from cache when the key is
present; otherwise compute, evict the oldest entry when more than 200 are
stored, and insert. -/
def validateSuggestionInContext (context : SuggestionContext) (cache : ValidationCache) :
    ValidationResult × ValidationCache :=
  let cacheKey := generateCacheKey context
  match cacheGet cache cacheKey with
  | some r => (r, cache)
  | none =>
      let result := performValidation context
      let cache1 := if 200 < cache.length then List.drop 1 cache else cache
      (result, cacheSet cache1 cacheKey result)

/-- `ValidateSuggestionInput` (the rule subobject inlined). -/
structure ValidateSuggestionInput where
  originalText : Str
  matchStart : Nat
  matchEnd : Nat
  replacement : Str
  ruleId : Str
  ruleCategory : Str
  ruleConfidence : Frac
deriving DecidableEq, Repr

/-- `SuggestionValidation` (upper-case risk labels). -/
structure SuggestionValidation where
  risk : RiskLabel
  confidence : Frac
  reasons : List Str
  isValid : Bool
deriving DecidableEq, Repr

/-- `risk.toUpperCase()` on the risk labels. -/
def riskToUpper : SuggestionRisk → RiskLabel
  | SuggestionRisk.safe => RiskLabel.SAFE
  | SuggestionRisk.moderate => RiskLabel.MODERATE
  | SuggestionRisk.risky => RiskLabel.RISKY

/-- The `SuggestionContext` built by `validateSuggestion` (rule type is
hard-coded to style). -/
def toSuggestionContext (input : ValidateSuggestionInput) : SuggestionContext :=
  { originalText := input.originalText,
    offset := input.matchStart,
    length := input.matchEnd - input.matchStart,
    replacement := input.replacement,
    ruleId := input.ruleId,
    ruleType := SuggKind.style,
    originalConfidence := input.ruleConfidence }

/-- `validateSuggestion(input)` on a given cache state (the source calls
`validateSuggestionInContext`, which reads and writes the shared cache). -/
def validateSuggestion (input : ValidateSuggestionInput) (cache : ValidationCache) :
    SuggestionValidation × ValidationCache :=
  let r := validateSuggestionInContext (toSuggestionContext input) cache
  ({ risk := riskToUpper r.1.risk,
     confidence := r.1.confidence,
     reasons := r.1.issues,
     isValid := r.1.isValid }, r.2)

/-- The pure (empty-cache / cache-bypassing) reading of
`validateSuggestion`, used to instantiate validator parameters. -/
def validateSuggestionPure (input : ValidateSuggestionInput) : SuggestionValidation :=
  let r := performValidation (toSuggestionContext input)
  { risk := riskToUpper r.risk, confidence := r.confidence,
    reasons := r.issues, isValid := r.isValid }

end GrammarValidationDefs

section ContextAwareStyleDefs

/-!
### Context-aware style rules (`context-aware-style-rules.ts`) and the
enhanced style processor (`enhanced-style-processor.ts`)

Pattern matching (`text.matchAll(rule.pattern)`) is delegated to an
abstract executor satisfying `SoundExec`; the rule records carry their
pattern source strings for identification.  Display-only `message` /
`shortMessage` fields are omitted.  The `EnhancedStyleProcessor` content
cache is a memoisation layer keyed by a text hash and is modelled as the
recomputation it memoises.
-/

/-- One regex match: `match.index` and `match[0]`. -/
structure RegexMatch where
  index : Nat
  text : Str
deriving DecidableEq, Repr

/-- An abstract JS regex executor: pattern source and subject to the list
of global matches, in match order. -/
abbrev RegexExec : Type := Str → Str → List RegexMatch

/-- Soundness of a regex executor: every reported match is a non-empty
substring of the subject occurring at the reported index.  (This is the
contract of `RegExp` for the patterns of this repository, all of which
require at least one literal character.) -/
def SoundExec (exec : RegexExec) : Prop :=
  ∀ (pattern text : Str), ∀ m ∈ exec pattern text,
    m.text ≠ [] ∧ m.index + m.text.length ≤ text.length ∧
      jsSub text m.index (m.index + m.text.length) = m.text

/-- The `clearlyCountablePlurals` list of the `a-lot-of-contextual` rule. -/
def clearlyCountablePlurals : List Str :=
  [ ("issues".data),
    ("problems".data),
    ("questions".data),
    ("ideas".data),
    ("options".data),
    ("choices".data),
    ("opportunities".data),
    ("challenges".data),
    ("benefits".data),
    ("advantages".data),
    ("features".data),
    ("improvements".data),
    ("changes".data),
    ("mistakes".data),
    ("errors".data),
    ("bugs".data),
    ("files".data),
    ("documents".data),
    ("reports".data),
    ("emails".data),
    ("messages".data),
    ("notifications".data),
    ("users".data),
    ("customers".data),
    ("clients".data),
    ("people".data),
    ("items".data),
    ("things".data),
    ("requests".data),
    ("suggestions".data),
    ("recommendations".data),
    ("solutions".data) ]

/-- The `commonPluralizable` list of the `a-lot-of-contextual` rule. -/
def ruleCommonPluralizable : List Str :=
  [ ("issue".data),
    ("problem".data),
    ("question".data),
    ("idea".data),
    ("option".data),
    ("choice".data),
    ("opportunity".data),
    ("challenge".data),
    ("benefit".data),
    ("advantage".data),
    ("feature".data),
    ("improvement".data),
    ("change".data),
    ("mistake".data),
    ("error".data),
    ("bug".data),
    ("file".data),
    ("document".data),
    ("report".data),
    ("email".data),
    ("message".data),
    ("notification".data),
    ("user".data),
    ("customer".data),
    ("client".data),
    ("person".data),
    ("item".data),
    ("thing".data),
    ("request".data),
    ("suggestion".data),
    ("recommendation".data),
    ("solution".data) ]

/-- The `uncountableNouns` list of `ContextAwareRuleSelector.processALotOfRule`. -/
def selectorUncountableNouns : List Str :=
  [ ("feedback".data),
    ("information".data),
    ("advice".data),
    ("research".data),
    ("work".data),
    ("time".data),
    ("money".data),
    ("water".data),
    ("food".data),
    ("music".data),
    ("traffic".data),
    ("furniture".data),
    ("equipment".data),
    ("software".data),
    ("data".data),
    ("content".data),
    ("progress".data),
    ("experience".data),
    ("knowledge".data),
    ("support".data),
    ("help".data),
    ("news".data),
    ("homework".data),
    ("housework".data),
    ("paperwork".data) ]

/-- The `commonPluralizable` list of `ContextAwareRuleSelector.processALotOfRule`. -/
def selectorCommonPluralizable : List Str :=
  [ ("issue".data),
    ("problem".data),
    ("question".data),
    ("idea".data),
    ("option".data),
    ("choice".data),
    ("opportunity".data),
    ("challenge".data),
    ("benefit".data),
    ("advantage".data),
    ("feature".data),
    ("improvement".data),
    ("change".data),
    ("person".data),
    ("people".data),
    ("user".data),
    ("customer".data),
    ("client".data),
    ("student".data),
    ("employee".data) ]


/-- The `strongerAdjectives` table of the `very-adjective-contextual` rule. -/
def strongerAdjectives : List (Str × Str) :=
  [ (("good".data), ("excellent".data)),
    (("bad".data), ("terrible".data)),
    (("big".data), ("enormous".data)),
    (("small".data), ("tiny".data)),
    (("important".data), ("crucial".data)),
    (("difficult".data), ("challenging".data)),
    (("easy".data), ("simple".data)),
    (("interesting".data), ("fascinating".data)),
    (("nice".data), ("wonderful".data)),
    (("great".data), ("outstanding".data)) ]

/-- `GrammarContext` handed to each rule's replacement callback. -/
structure GrammarContext where
  fullText : Str
  matchStart : Nat
  matchEnd : Nat
  beforeContext : Str
  afterContext : Str
  sentencePosition : SentencePos
  isCompleteSentence : Bool

/-- `ContextAwareStyleRule`. -/
structure ContextAwareStyleRule where
  id : Str
  pattern : Str
  type : SuggKind
  category : Str
  confidence : Frac
  riskLevel : SuggestionRisk
  requiresValidation : Bool
  contextAwareReplacement : Str → GrammarContext → Option Str

/-- Parse a case-insensitive literal (given lower-case), returning the
remaining input. -/
def parseLitCI : Str → Str → Option Str
  | [], s => some s
  | _ :: _, [] => none
  | c :: cs, d :: ds => if jsLowerChar d = c then parseLitCI cs ds else none

/-- Parse `\s+` (greedy), returning the remaining input. -/
def parseWsPlus : Str → Option Str
  | [] => none
  | c :: rest => if isWsChar c then some (List.dropWhile isWsChar rest) else none

/-- Attempt `/there\s+are\s+many/i` at the head of the input. -/
def matchTamAt (s : Str) : Option Str :=
  Option.bind (parseLitCI ("there".data) s) (fun s1 =>
  Option.bind (parseWsPlus s1) (fun s2 =>
  Option.bind (parseLitCI ("are".data) s2) (fun s3 =>
  Option.bind (parseWsPlus s3) (fun s4 =>
  parseLitCI ("many".data) s4))))

/-- Global scan for `.replace(/there\s+are\s+many/gi, "Many")`. -/
def replaceTamGo : Nat → Str → Str
  | 0, s => s
  | _ + 1, [] => []
  | fuel + 1, c :: rest =>
      match matchTamAt (c :: rest) with
      | some rem => ("Many".data) ++ replaceTamGo fuel rem
      | none => c :: replaceTamGo fuel rest

/-- `sentence.replace(/there\s+are\s+many/gi, "Many")`. -/
def replaceThereAreMany (s : Str) : Str := replaceTamGo s.length s

/-- Attempt `/very\s+/i` at the head of the input. -/
def matchVeryAt (s : Str) : Option Str :=
  Option.bind (parseLitCI ("very".data) s) parseWsPlus

/-- First-occurrence scan for `.replace(/very\s+/i, '')`. -/
def replaceVeryGo : Nat → Str → Str
  | 0, s => s
  | _ + 1, [] => []
  | fuel + 1, c :: rest =>
      match matchVeryAt (c :: rest) with
      | some rem => rem
      | none => c :: replaceVeryGo fuel rest

/-- `match.replace(/very\s+/i, '')`. -/
def replaceVeryFirst (s : Str) : Str := replaceVeryGo s.length s

/-- `there-are-many-contextual`'s `contextAwareReplacement`: suggest
`"Many"` only at sentence start, and only when the owning sentence — the
first piece of `fullText.split(/[.!?]+/)` that contains the matched text
case-insensitively — still passes `isCompleteSentence` after rewriting
`there are many` to `Many`.  (The source also builds a `newSentence`
string that it never reads; it is not modelled.) -/
def thereAreManyContextualReplacement (m : Str) (context : GrammarContext) : Option Str :=
  let position := getSentencePosition context.fullText context.matchStart
  if position = SentencePos.start then
    let sentences := jsSplit (fun c => isSentencePunct c) context.fullText
    match jsFindIndex (fun s => strContains (jsToLower s) (jsToLower m)) sentences with
    | some i =>
        match sentences[i]? with
        | some originalSentence =>
            let newSentenceText := replaceThereAreMany originalSentence
            if isCompleteSentence (jsTrim newSentenceText) then some ("Many".data) else none
        | none => none
    | none => none
  else none

/-- `a-lot-of-contextual`'s `contextAwareReplacement`: look at the word
following the phrase; suggest `"many"` for a listed plural (word ending in
`s`/`es` and present in `clearlyCountablePlurals`) or for a listed
countable singular; otherwise suggest nothing.  (This rule has no
uncountable-noun branch and never suggests `"much"`.) -/
def aLotOfContextualReplacement (_m : Str) (context : GrammarContext) : Option Str :=
  let afterMatch := jsTrim (jsSubFrom context.fullText context.matchEnd)
  let nextWord := jsToLower (List.headD (jsSplitWs afterMatch) [])
  if nextWord = [] then none
  else if (strEnds nextWord ("s".data) || strEnds nextWord ("es".data)) &&
      List.contains clearlyCountablePlurals nextWord then
    some ("many".data)
  else if List.contains ruleCommonPluralizable nextWord then some ("many".data)
  else none

/-- `it-is-important-contextual`'s `contextAwareReplacement`. -/
def itIsImportantContextualReplacement (_m : Str) (context : GrammarContext) : Option Str :=
  let position := getSentencePosition context.fullText context.matchStart
  if position = SentencePos.start then
    let afterMatch := jsTrim (jsSubFrom context.fullText context.matchEnd)
    if afterMatch ≠ [] ∧ 10 < afterMatch.length then
      match afterMatch with
      | c :: rest => some (jsUpperChar c :: rest)
      | [] => none
    else none
  else none

/-- `basically-contextual`'s `contextAwareReplacement`. -/
def basicallyContextualReplacement (m : Str) (_context : GrammarContext) : Option Str :=
  if strContains m [','] then some (", ".data) else some (" ".data)

/-- `very-adjective-contextual`'s `contextAwareReplacement`. -/
def veryAdjectiveContextualReplacement (m : Str) (_context : GrammarContext) : Option Str :=
  let adjective := jsToLower (replaceVeryFirst m)
  some (Option.getD
    (Option.map Prod.snd (List.find? (fun p => p.1 = adjective) strongerAdjectives))
    adjective)

/-- The `contextAwareStyleRules` table (patterns as source strings). -/
def contextAwareStyleRules : List ContextAwareStyleRule :=
  [ { id := ("there-are-many-contextual".data),
      pattern := ("\\bthere\\s+are\\s+many\\b".data),
      type := SuggKind.style, category := ("weak-opening".data),
      confidence := Frac.mk10 7 10, riskLevel := SuggestionRisk.risky,
      requiresValidation := true,
      contextAwareReplacement := thereAreManyContextualReplacement },
    { id := ("a-lot-of-contextual".data),
      pattern := ("\\ba\\s+lot\\s+of\\b".data),
      type := SuggKind.style, category := ("vague".data),
      confidence := Frac.mk10 7 10, riskLevel := SuggestionRisk.moderate,
      requiresValidation := true,
      contextAwareReplacement := aLotOfContextualReplacement },
    { id := ("it-is-important-contextual".data),
      pattern := ("\\bit\\s+is\\s+important\\s+to\\s+note\\s+that\\b".data),
      type := SuggKind.style, category := ("weak-opening".data),
      confidence := Frac.mk10 8 10, riskLevel := SuggestionRisk.moderate,
      requiresValidation := true,
      contextAwareReplacement := itIsImportantContextualReplacement },
    { id := ("basically-contextual".data),
      pattern := ("\\bbasically,?\\s+".data),
      type := SuggKind.style, category := ("filler".data),
      confidence := Frac.mk10 8 10, riskLevel := SuggestionRisk.safe,
      requiresValidation := false,
      contextAwareReplacement := basicallyContextualReplacement },
    { id := ("very-adjective-contextual".data),
      pattern := ("\\bvery\\s+(good|bad|big|small|important|difficult|easy|interesting|nice|great)\\b".data),
      type := SuggKind.style, category := ("adverb-overuse".data),
      confidence := Frac.mk10 7 10, riskLevel := SuggestionRisk.safe,
      requiresValidation := false,
      contextAwareReplacement := veryAdjectiveContextualReplacement },
    { id := ("make-decision-contextual".data),
      pattern := ("\\bmake\\s+a\\s+decision\\b".data),
      type := SuggKind.style, category := ("nominalization".data),
      confidence := Frac.mk10 8 10, riskLevel := SuggestionRisk.safe,
      requiresValidation := false,
      contextAwareReplacement := fun _ _ => some ("decide".data) },
    { id := ("give-consideration-contextual".data),
      pattern := ("\\bgive\\s+consideration\\s+to\\b".data),
      type := SuggKind.style, category := ("nominalization".data),
      confidence := Frac.mk10 9 10, riskLevel := SuggestionRisk.safe,
      requiresValidation := false,
      contextAwareReplacement := fun _ _ => some ("consider".data) },
    { id := ("conduct-analysis-contextual".data),
      pattern := ("\\bconduct\\s+an?\\s+analysis\\b".data),
      type := SuggKind.style, category := ("nominalization".data),
      confidence := Frac.mk10 9 10, riskLevel := SuggestionRisk.safe,
      requiresValidation := false,
      contextAwareReplacement := fun _ _ => some ("analyze".data) } ]

/-- A validator function: how `validateSuggestion` answers (parameterising
over it covers every possible state of the shared validation cache;
`validateSuggestionPure` is the empty-cache instance). -/
abbrev StyleValidator : Type := ValidateSuggestionInput → SuggestionValidation

/-- One suggestion tuple produced by `processWithContextAwareStyleRules`. -/
structure CAStyleSuggestion where
  rule : ContextAwareStyleRule
  matchText : Str
  start : Nat
  stop : Nat
  suggestion : Str
  validation : Option SuggestionValidation

/-- The `GrammarContext` built for one match (`matchStart = match.index`,
`matchEnd = match.index + match[0].length`, ±50-character context windows,
sentence metadata via `buildContextMetadata(text, matchStart, matchEnd)` —
the source passes the END offset in the `length` parameter slot). -/
def mkStyleContext (text : Str) (m : RegexMatch) : GrammarContext :=
  let matchStart := m.index
  let matchEnd := m.index + m.text.length
  let metadata := buildContextMetadata text matchStart matchEnd
  { fullText := text, matchStart := matchStart, matchEnd := matchEnd,
    beforeContext := jsSub text (matchStart - 50) matchStart,
    afterContext := jsSub text matchEnd (min text.length (matchEnd + 50)),
    sentencePosition := metadata.sentencePosition,
    isCompleteSentence := metadata.sentenceBoundary.isComplete }

/-- The RISKY-below-0.6 gate applied to a validated suggestion
(`continue` = `none`). -/
def processValidated (rule : ContextAwareStyleRule) (matchText : Str)
    (matchStart matchEnd : Nat) (suggestion : Str)
    (validation : SuggestionValidation) : Option CAStyleSuggestion :=
  if validation.risk = RiskLabel.RISKY ∧
      Frac.blt validation.confidence (Frac.mk10 6 10) = true then none
  else some
    { rule := rule, matchText := matchText, start := matchStart, stop := matchEnd,
      suggestion := suggestion, validation := some validation }

/-- Validate-if-required and build the suggestion tuple. -/
def processSuggGate (validate : StyleValidator) (text : Str)
    (rule : ContextAwareStyleRule) (matchText : Str) (matchStart matchEnd : Nat)
    (suggestion : Str) : Option CAStyleSuggestion :=
  if rule.requiresValidation then
    processValidated rule matchText matchStart matchEnd suggestion
      (validate
        { originalText := text, matchStart := matchStart, matchEnd := matchEnd,
          replacement := suggestion, ruleId := rule.id,
          ruleCategory := rule.category, ruleConfidence := rule.confidence })
  else some
    { rule := rule, matchText := matchText, start := matchStart, stop := matchEnd,
      suggestion := suggestion, validation := none }

/-- The per-match body of the `processWithContextAwareStyleRules` loop:
`none` models `continue`.  The source's `if (!match.index) continue`
discards any match whose index is `0` (falsy), before the rule's
`contextAwareReplacement` is invoked. -/
def processOneMatch (validate : StyleValidator) (text : Str)
    (rule : ContextAwareStyleRule) (m : RegexMatch) : Option CAStyleSuggestion :=
  if m.index = 0 then none
  else
    match rule.contextAwareReplacement m.text (mkStyleContext text m) with
    | none => none
    | some suggestion =>
        processSuggGate validate text rule m.text m.index (m.index + m.text.length) suggestion

/-- `processWithContextAwareStyleRules(text, rules)`. -/
def processWithContextAwareStyleRules (validate : StyleValidator) (exec : RegexExec)
    (text : Str) (rules : List ContextAwareStyleRule) : List CAStyleSuggestion :=
  List.flatMap rules (fun rule =>
    List.filterMap (processOneMatch validate text rule) (exec rule.pattern text))

/-- `GrammarSuggestion` of `grammar-engine.ts` (fields read by the
pipeline). -/
structure GrammarSuggestion where
  id : Str
  type : SuggKind
  category : Str
  confidence : Frac
  start : Nat
  stop : Nat
  text : Str
  replacement : Str
  ruleId : Str
  validated : Bool
  validationRisk : Option RiskLabel
  validationReasons : Option (List Str)

/-- `convertToGrammarSuggestions`. -/
def convertToGrammarSuggestions (l : List CAStyleSuggestion) : List GrammarSuggestion :=
  List.map (fun s =>
    { id := s.rule.id ++ ("-".data) ++ natToStr s.start,
      type := s.rule.type,
      category := s.rule.category,
      confidence :=
        match s.validation with
        | some v => v.confidence
        | none => s.rule.confidence,
      start := s.start, stop := s.stop,
      text := s.matchText, replacement := s.suggestion, ruleId := s.rule.id,
      validated := (s.validation).isSome,
      validationRisk := Option.map (fun v => v.risk) s.validation,
      validationReasons := Option.map (fun v => v.reasons) s.validation }) l

/-- The keep-predicate of `filterGrammarSuggestionsByValidation`: drop
truthy confidences below 0.3, and RISKY-validated suggestions below 0.7. -/
def keepGrammarSuggestion (s : GrammarSuggestion) : Bool :=
  if s.confidence.num ≠ 0 ∧ Frac.blt s.confidence (Frac.mk10 3 10) then false
  else if s.validationRisk = some RiskLabel.RISKY ∧
      Frac.blt s.confidence (Frac.mk10 7 10) then false
  else true

/-- `filterGrammarSuggestionsByValidation(suggestions, originalText)` — the
text argument is unused by the source. -/
def filterGrammarSuggestionsByValidation (l : List GrammarSuggestion) : List GrammarSuggestion :=
  List.filter keepGrammarSuggestion l

/-- `EnhancedStyleProcessor.processStyleSuggestions(text)` (the content
cache modelled as the recomputation it memoises). -/
def processStyleSuggestions (validate : StyleValidator) (exec : RegexExec) (text : Str) :
    List GrammarSuggestion :=
  filterGrammarSuggestionsByValidation
    (convertToGrammarSuggestions
      (processWithContextAwareStyleRules validate exec text contextAwareStyleRules))

end ContextAwareStyleDefs

section RuleSelectorDefs

/-!
### `ContextAwareRuleSelector.processALotOfRule`
(`context-aware-rule-selector.ts`)

Of its five parameters only `fullText` and `matchEnd` are read; the
unused ones are kept for shape. -/

/-- The lower-cased word immediately following the matched phrase
(`fullText.substring(matchEnd).trim().split(/\s+/)[0]?.toLowerCase()`). -/
def aLotOfNextWord (fullText : Str) (matchEnd : Nat) : Str :=
  jsToLower (List.headD (jsSplitWs (jsTrim (jsSubFrom fullText matchEnd))) [])

/-- `ContextAwareRuleSelector.processALotOfRule`. -/
def processALotOfRule (_matchText : Str) (_context : ContextMetadata) (fullText : Str)
    (_matchStart : Nat) (matchEnd : Nat) : Option Str :=
  let nextWord := aLotOfNextWord fullText matchEnd
  if nextWord = [] then none
  else if List.contains selectorUncountableNouns nextWord then some ("much".data)
  else if strEnds nextWord ("s".data) || strEnds nextWord ("es".data) then some ("many".data)
  else if List.contains selectorCommonPluralizable nextWord then some ("many".data)
  else some ("much".data)

end RuleSelectorDefs

section EngineRuleDefs

/-!
### The rule tables (`grammar-rules.ts`, `style-rules.ts`,
`spelling-rules.ts`) and the replacement scanners

A rule's `replacement` is a literal string or a function of the matched
text.  The function replacements of the source call
`String.prototype.replace` with small fixed regexes on the matched text;
those inner regexes are embedded concretely below as scanners (the
patterns are literal alternations followed by `\s+` runs, so the greedy
scan needs no backtracking).  Display-only `message` / `shortMessage` /
`examples` fields are never read by any algorithm and are omitted.
-/

/-- A rule's replacement: a literal or a function of the matched text. -/
inductive RuleReplacement where
  | lit (s : Str)
  | fn (f : Str → Str)

/-- One entry of the unified rule tables (`GrammarRule` / `StyleRule` /
`SpellingRule` share this shape). -/
structure EngineRule where
  id : Str
  pattern : Str
  type : SuggKind
  category : Str
  confidence : Frac
  replacement : RuleReplacement

/-- Case-insensitive literal parser keeping the matched input characters
(the pattern is given lower-case); returns `(matched, remaining)`. -/
def parseLitCIKeep : Str → Str → Option (Str × Str)
  | [], s => some ([], s)
  | _ :: _, [] => none
  | c :: cs, d :: ds =>
      if jsLowerChar d = c then
        Option.map (fun p => (d :: p.1, p.2)) (parseLitCIKeep cs ds)
      else none

/-- Regex alternation `(a|b|…)` over case-insensitive literals, trying the
alternatives in order and keeping the matched input characters. -/
def parseAltCIKeep : List Str → Str → Option (Str × Str)
  | [], _ => none
  | a :: rest, s =>
      match parseLitCIKeep a s with
      | some r => some r
      | none => parseAltCIKeep rest s

/-- Case-sensitive literal parser keeping the matched characters. -/
def parseLitCSKeep : Str → Str → Option (Str × Str)
  | [], s => some ([], s)
  | _ :: _, [] => none
  | c :: cs, d :: ds =>
      if d = c then
        Option.map (fun p => (d :: p.1, p.2)) (parseLitCSKeep cs ds)
      else none

/-- Greedy `\s+` keeping the consumed run; the following pattern pieces
here never start with a whitespace character, so the greedy run needs no
backtracking. -/
def parseWsPlusKeep : Str → Option (Str × Str)
  | [] => none
  | c :: rest =>
      if isWsChar c then
        some (c :: List.takeWhile isWsChar rest, List.dropWhile isWsChar rest)
      else none

/-- `\b` before a word character: the previous character (if any) is not a
word character. -/
def boundaryBefore (prev : Option Char) : Bool :=
  match prev with
  | none => true
  | some c => !isWordChar c

/-- `\b` after a word character: the next character (if any) is not a word
character. -/
def boundaryAfterOk (rem : Str) : Bool :=
  match rem with
  | [] => true
  | c :: _ => !isWordChar c

/-- A positional matcher for an inner `replace` regex: from the previous
character and the remaining input, produce
`(replacement, consumed, remaining)` on success. -/
abbrev ReplMatcher : Type := Option Char → Str → Option (Str × Str × Str)

/-- Global (`g`-flag) `String.prototype.replace` driver: scan left to
right, substituting each match and resuming after it. -/
def replaceAllGo (f : ReplMatcher) : Nat → Option Char → Str → Str
  | 0, _, s => s
  | _ + 1, _, [] => []
  | fuel + 1, prev, c :: rest =>
      match f prev (c :: rest) with
      | some (rep, consumed, rem) =>
          rep ++ replaceAllGo f fuel (List.getLast? consumed) rem
      | none => c :: replaceAllGo f fuel (some c) rest

/-- `s.replace(re, …)` with a global regex. -/
def replaceAllBy (f : ReplMatcher) (s : Str) : Str := replaceAllGo f s.length none s

/-- First-occurrence `String.prototype.replace` driver (no `g` flag). -/
def replaceFirstGo (f : ReplMatcher) : Nat → Option Char → Str → Str
  | 0, _, s => s
  | _ + 1, _, [] => []
  | fuel + 1, prev, c :: rest =>
      match f prev (c :: rest) with
      | some (rep, _, rem) => rep ++ rem
      | none => c :: replaceFirstGo f fuel (some c) rest

/-- `s.replace(re, …)` with a non-global regex. -/
def replaceFirstBy (f : ReplMatcher) (s : Str) : Str := replaceFirstGo f s.length none s

/-- Matcher for `/\b(there|here)\s+is\b/gi` with replacement `"$1 are"`
(the captured word keeps its original casing). -/
def matchThereHereIs : ReplMatcher := fun prev s =>
  if boundaryBefore prev then
    Option.bind (parseAltCIKeep [("there".data), ("here".data)] s) (fun p1 =>
    Option.bind (parseWsPlusKeep p1.2) (fun p2 =>
    Option.bind (parseLitCIKeep ("is".data) p2.2) (fun p3 =>
    if boundaryAfterOk p3.2 then
      some (p1.1 ++ (" are".data), p1.1 ++ p2.1 ++ p3.1, p3.2)
    else none)))
  else none

/-- Matcher for `/\s+are\b/gi` with replacement `" is"`. -/
def matchWsAre : ReplMatcher := fun _ s =>
  Option.bind (parseWsPlusKeep s) (fun p1 =>
  Option.bind (parseLitCIKeep ("are".data) p1.2) (fun p2 =>
  if boundaryAfterOk p2.2 then some ((" is".data), p1.1 ++ p2.1, p2.2) else none))

/-- Matcher for `/\bme\s+and\s+/gi` with replacement `"I and "`. -/
def matchMeAnd : ReplMatcher := fun prev s =>
  if boundaryBefore prev then
    Option.bind (parseLitCIKeep ("me".data) s) (fun p1 =>
    Option.bind (parseWsPlusKeep p1.2) (fun p2 =>
    Option.bind (parseLitCIKeep ("and".data) p2.2) (fun p3 =>
    Option.bind (parseWsPlusKeep p3.2) (fun p4 =>
    some (("I and ".data), p1.1 ++ p2.1 ++ p3.1 ++ p4.1, p4.2)))))
  else none

/-- Matcher for `/\s+of\b/gi` with replacement `" have"`. -/
def matchWsOf : ReplMatcher := fun _ s =>
  Option.bind (parseWsPlusKeep s) (fun p1 =>
  Option.bind (parseLitCIKeep ("of".data) p1.2) (fun p2 =>
  if boundaryAfterOk p2.2 then some ((" have".data), p1.1 ++ p2.1, p2.2) else none))

/-- Matcher for `/,\s+/` with replacement `"; "`. -/
def matchCommaWs : ReplMatcher := fun _ s =>
  match s with
  | [] => none
  | c :: rest =>
      if c = ',' then
        Option.bind (parseWsPlusKeep rest) (fun p =>
          some (("; ".data), c :: p.1, p.2))
      else none

/-- Matcher for the case-sensitive `/very\s+/` with empty replacement. -/
def matchVeryWsCS : ReplMatcher := fun _ s =>
  Option.bind (parseLitCSKeep ("very".data) s) (fun p1 =>
  Option.bind (parseWsPlusKeep p1.2) (fun p2 =>
  some (([] : Str), p1.1 ++ p2.1, p2.2)))

/-- `there-is-plural`: `match.replace(/\b(there|here)\s+is\b/gi, "$1 are")`. -/
def thereIsPluralFn (m : Str) : Str := replaceAllBy matchThereHereIs m

/-- `collective-noun-singular` / `each-singular`:
`match.replace(/\s+are\b/gi, " is")`. -/
def wsAreFn (m : Str) : Str := replaceAllBy matchWsAre m

/-- `me-and-subject`: `match.replace(/\bme\s+and\s+/gi, "I and ")`. -/
def meAndSubjectFn (m : Str) : Str := replaceAllBy matchMeAnd m

/-- `could-of`: `match.replace(/\s+of\b/gi, " have")`. -/
def couldOfFn (m : Str) : Str := replaceAllBy matchWsOf m

/-- `comma-splice`: `match.replace(/,\s+/, "; ")` (first occurrence only). -/
def commaSpliceFn (m : Str) : Str := replaceFirstBy matchCommaWs m

/-- `passive-voice-was` / `passive-voice-being`: the template
`[Consider rephrasing: MATCH]`. -/
def passiveRephraseFn (m : Str) : Str :=
  ("[Consider rephrasing: ".data) ++ m ++ ("]".data)

/-- `very-long-sentence`: `[Consider breaking up: MATCH.substring(0, 50)...]`. -/
def veryLongSentenceFn (m : Str) : Str :=
  ("[Consider breaking up: ".data) ++ jsSub m 0 50 ++ ("...]".data)

/-- `very-adverb`: `match.replace(/very\s+/, "")` — case-sensitive and
first-occurrence only (unlike the rule's own `gi` pattern). -/
def veryAdverbFn (m : Str) : Str := replaceFirstBy matchVeryWsCS m

/-- The `grammarRules` table of `grammar-rules.ts` (19 rules). -/
def grammarRules : List EngineRule :=
  [ { id := ("there-is-plural".data),
      pattern := ("\\b(there|here)\\s+is\\s+(\\w+\\s+)*\\w*s\\b".data),
      type := SuggKind.grammar, category := ("subject-verb".data),
      confidence := Frac.mk10 9 10,
      replacement := RuleReplacement.fn thereIsPluralFn },
    { id := ("collective-noun-singular".data),
      pattern := ("\\b(team|group|family|company|staff|crew|band|committee)\\s+are\\b".data),
      type := SuggKind.grammar, category := ("subject-verb".data),
      confidence := Frac.mk10 8 10,
      replacement := RuleReplacement.fn wsAreFn },
    { id := ("each-singular".data),
      pattern := ("\\beach\\s+of\\s+\\w+\\s+are\\b".data),
      type := SuggKind.grammar, category := ("subject-verb".data),
      confidence := Frac.mk10 95 100,
      replacement := RuleReplacement.fn wsAreFn },
    { id := ("me-and-subject".data),
      pattern := ("\\b(me\\s+and\\s+\\w+|me\\s+and\\s+I)\\s+(went|did|are|were|will|have|had)".data),
      type := SuggKind.grammar, category := ("pronoun".data),
      confidence := Frac.mk10 9 10,
      replacement := RuleReplacement.fn meAndSubjectFn },
    { id := ("between-you-and-i".data),
      pattern := ("\\bbetween\\s+you\\s+and\\s+I\\b".data),
      type := SuggKind.grammar, category := ("pronoun".data),
      confidence := Frac.mk10 95 100,
      replacement := RuleReplacement.lit (("between you and me".data)) },
    { id := ("its-contraction".data),
      pattern := ("\\bits\\s+(?=going|coming|being|doing|really|very|quite|always|never)".data),
      type := SuggKind.grammar, category := ("contraction".data),
      confidence := Frac.mk10 85 100,
      replacement := RuleReplacement.lit (("it".data) ++ [apos] ++ ("s".data)) },
    { id := ("its-possessive".data),
      pattern := ("\\bit".data) ++ [apos] ++ ("s\\s+(?=own|color|size|shape|weight|length|width|height|name|purpose)".data),
      type := SuggKind.grammar, category := ("possessive".data),
      confidence := Frac.mk10 85 100,
      replacement := RuleReplacement.lit (("its".data)) },
    { id := ("your-contraction".data),
      pattern := ("\\byour\\s+(?=going|coming|being|doing|really|very|quite|always|never|not|welcome)".data),
      type := SuggKind.grammar, category := ("contraction".data),
      confidence := Frac.mk10 9 10,
      replacement := RuleReplacement.lit (("you".data) ++ [apos] ++ ("re".data)) },
    { id := ("youre-possessive".data),
      pattern := ("\\byou".data) ++ [apos] ++ ("re\\s+(?=house|car|book|phone|computer|family|friend|job|work|idea)".data),
      type := SuggKind.grammar, category := ("possessive".data),
      confidence := Frac.mk10 9 10,
      replacement := RuleReplacement.lit (("your".data)) },
    { id := ("then-comparison".data),
      pattern := ("\\bthen\\s+(?=better|worse|more|less|bigger|smaller|faster|slower|higher|lower)".data),
      type := SuggKind.grammar, category := ("comparison".data),
      confidence := Frac.mk10 95 100,
      replacement := RuleReplacement.lit (("than".data)) },
    { id := ("an-consonant".data),
      pattern := ("\\ban\\s+(?=university|user|unique|uniform|union|unit|usual|utility)".data),
      type := SuggKind.grammar, category := ("article".data),
      confidence := Frac.mk10 9 10,
      replacement := RuleReplacement.lit (("a".data)) },
    { id := ("a-vowel-sound".data),
      pattern := ("\\ba\\s+(?=hour|honor|honest|heir|herb)".data),
      type := SuggKind.grammar, category := ("article".data),
      confidence := Frac.mk10 95 100,
      replacement := RuleReplacement.lit (("an".data)) },
    { id := ("could-of".data),
      pattern := ("\\b(could|would|should|might|must)\\s+of\\b".data),
      type := SuggKind.grammar, category := ("verb-form".data),
      confidence := Frac.mk10 95 100,
      replacement := RuleReplacement.fn couldOfFn },
    { id := ("i-seen".data),
      pattern := ("\\bI\\s+seen\\b".data),
      type := SuggKind.grammar, category := ("verb-form".data),
      confidence := Frac.mk10 9 10,
      replacement := RuleReplacement.lit (("I saw".data)) },
    { id := ("different-than".data),
      pattern := ("\\bdifferent\\s+than\\b".data),
      type := SuggKind.grammar, category := ("preposition".data),
      confidence := Frac.mk10 8 10,
      replacement := RuleReplacement.lit (("different from".data)) },
    { id := ("try-and".data),
      pattern := ("\\btry\\s+and\\b".data),
      type := SuggKind.grammar, category := ("preposition".data),
      confidence := Frac.mk10 85 100,
      replacement := RuleReplacement.lit (("try to".data)) },
    { id := ("dont-have-no".data),
      pattern := ("\\bdon".data) ++ [apos] ++ ("t\\s+have\\s+no\\b".data),
      type := SuggKind.grammar, category := ("double-negative".data),
      confidence := Frac.mk10 95 100,
      replacement := RuleReplacement.lit (("don".data) ++ [apos] ++ ("t have any".data)) },
    { id := ("cant-hardly".data),
      pattern := ("\\bcan".data) ++ [apos] ++ ("t\\s+hardly\\b".data),
      type := SuggKind.grammar, category := ("double-negative".data),
      confidence := Frac.mk10 95 100,
      replacement := RuleReplacement.lit (("can hardly".data)) },
    { id := ("comma-splice".data),
      pattern := ("\\b\\w+,\\s+I\\s+(went|did|am|was|will|have|had)".data),
      type := SuggKind.grammar, category := ("punctuation".data),
      confidence := Frac.mk10 7 10,
      replacement := RuleReplacement.fn commaSpliceFn } ]

/-- The `styleRules` table of `style-rules.ts` (30 rules). -/
def styleRules : List EngineRule :=
  [ { id := ("passive-voice-was".data),
      pattern := ("\\b(was|were)\\s+(\\w+ed|given|taken|made|done|seen|heard|found|told|asked|shown)\\b".data),
      type := SuggKind.style, category := ("voice".data),
      confidence := Frac.mk10 7 10,
      replacement := RuleReplacement.fn passiveRephraseFn },
    { id := ("passive-voice-being".data),
      pattern := ("\\b(is|are|am|was|were)\\s+being\\s+(\\w+ed|given|taken|made|done|seen|heard|found|told|asked|shown)\\b".data),
      type := SuggKind.style, category := ("voice".data),
      confidence := Frac.mk10 8 10,
      replacement := RuleReplacement.fn passiveRephraseFn },
    { id := ("advance-planning".data),
      pattern := ("\\badvance\\s+planning\\b".data),
      type := SuggKind.style, category := ("redundancy".data),
      confidence := Frac.mk10 9 10,
      replacement := RuleReplacement.lit (("planning".data)) },
    { id := ("brief-summary".data),
      pattern := ("\\bbrief\\s+summary\\b".data),
      type := SuggKind.style, category := ("redundancy".data),
      confidence := Frac.mk10 9 10,
      replacement := RuleReplacement.lit (("summary".data)) },
    { id := ("close-proximity".data),
      pattern := ("\\bclose\\s+proximity\\b".data),
      type := SuggKind.style, category := ("redundancy".data),
      confidence := Frac.mk10 9 10,
      replacement := RuleReplacement.lit (("proximity".data)) },
    { id := ("end-result".data),
      pattern := ("\\bend\\s+result\\b".data),
      type := SuggKind.style, category := ("redundancy".data),
      confidence := Frac.mk10 9 10,
      replacement := RuleReplacement.lit (("result".data)) },
    { id := ("final-outcome".data),
      pattern := ("\\bfinal\\s+outcome\\b".data),
      type := SuggKind.style, category := ("redundancy".data),
      confidence := Frac.mk10 9 10,
      replacement := RuleReplacement.lit (("outcome".data)) },
    { id := ("at-this-point-in-time".data),
      pattern := ("\\bat\\s+this\\s+point\\s+in\\s+time\\b".data),
      type := SuggKind.style, category := ("wordiness".data),
      confidence := Frac.mk10 9 10,
      replacement := RuleReplacement.lit (("now".data)) },
    { id := ("due-to-the-fact-that".data),
      pattern := ("\\bdue\\s+to\\s+the\\s+fact\\s+that\\b".data),
      type := SuggKind.style, category := ("wordiness".data),
      confidence := Frac.mk10 95 100,
      replacement := RuleReplacement.lit (("because".data)) },
    { id := ("in-order-to".data),
      pattern := ("\\bin\\s+order\\s+to\\b".data),
      type := SuggKind.style, category := ("wordiness".data),
      confidence := Frac.mk10 8 10,
      replacement := RuleReplacement.lit (("to".data)) },
    { id := ("for-the-purpose-of".data),
      pattern := ("\\bfor\\s+the\\s+purpose\\s+of\\b".data),
      type := SuggKind.style, category := ("wordiness".data),
      confidence := Frac.mk10 9 10,
      replacement := RuleReplacement.lit (("to".data)) },
    { id := ("in-the-event-that".data),
      pattern := ("\\bin\\s+the\\s+event\\s+that\\b".data),
      type := SuggKind.style, category := ("wordiness".data),
      confidence := Frac.mk10 95 100,
      replacement := RuleReplacement.lit (("if".data)) },
    { id := ("with-regard-to".data),
      pattern := ("\\bwith\\s+regard\\s+to\\b".data),
      type := SuggKind.style, category := ("wordiness".data),
      confidence := Frac.mk10 9 10,
      replacement := RuleReplacement.lit (("about".data)) },
    { id := ("very-unique".data),
      pattern := ("\\bvery\\s+unique\\b".data),
      type := SuggKind.style, category := ("qualifier".data),
      confidence := Frac.mk10 95 100,
      replacement := RuleReplacement.lit (("unique".data)) },
    { id := ("quite-perfect".data),
      pattern := ("\\b(quite|very|rather)\\s+perfect\\b".data),
      type := SuggKind.style, category := ("qualifier".data),
      confidence := Frac.mk10 9 10,
      replacement := RuleReplacement.lit (("perfect".data)) },
    { id := ("absolutely-essential".data),
      pattern := ("\\babsolutely\\s+essential\\b".data),
      type := SuggKind.style, category := ("qualifier".data),
      confidence := Frac.mk10 9 10,
      replacement := RuleReplacement.lit (("essential".data)) },
    { id := ("basically".data),
      pattern := ("\\bbasically,?\\s+".data),
      type := SuggKind.style, category := ("filler".data),
      confidence := Frac.mk10 8 10,
      replacement := RuleReplacement.lit (("".data)) },
    { id := ("literally-figurative".data),
      pattern := ("\\bliterally\\s+(?=amazing|incredible|dying|exploded|flew|melted)".data),
      type := SuggKind.style, category := ("filler".data),
      confidence := Frac.mk10 85 100,
      replacement := RuleReplacement.lit (("".data)) },
    { id := ("think-outside-box".data),
      pattern := ("\\bthink\\s+outside\\s+the\\s+box\\b".data),
      type := SuggKind.style, category := ("cliche".data),
      confidence := Frac.mk10 8 10,
      replacement := RuleReplacement.lit (("think creatively".data)) },
    { id := ("low-hanging-fruit".data),
      pattern := ("\\blow.hanging\\s+fruit\\b".data),
      type := SuggKind.style, category := ("cliche".data),
      confidence := Frac.mk10 8 10,
      replacement := RuleReplacement.lit (("easy opportunities".data)) },
    { id := ("paradigm-shift".data),
      pattern := ("\\bparadigm\\s+shift\\b".data),
      type := SuggKind.style, category := ("cliche".data),
      confidence := Frac.mk10 7 10,
      replacement := RuleReplacement.lit (("fundamental change".data)) },
    { id := ("make-decision".data),
      pattern := ("\\bmake\\s+a\\s+decision\\b".data),
      type := SuggKind.style, category := ("nominalization".data),
      confidence := Frac.mk10 8 10,
      replacement := RuleReplacement.lit (("decide".data)) },
    { id := ("give-consideration".data),
      pattern := ("\\bgive\\s+consideration\\s+to\\b".data),
      type := SuggKind.style, category := ("nominalization".data),
      confidence := Frac.mk10 9 10,
      replacement := RuleReplacement.lit (("consider".data)) },
    { id := ("conduct-analysis".data),
      pattern := ("\\bconduct\\s+an?\\s+analysis\\b".data),
      type := SuggKind.style, category := ("nominalization".data),
      confidence := Frac.mk10 9 10,
      replacement := RuleReplacement.lit (("analyze".data)) },
    { id := ("there-are-many".data),
      pattern := ("\\bthere\\s+are\\s+many\\b".data),
      type := SuggKind.style, category := ("weak-opening".data),
      confidence := Frac.mk10 7 10,
      replacement := RuleReplacement.lit (("Many".data)) },
    { id := ("it-is-important".data),
      pattern := ("\\bit\\s+is\\s+important\\s+to\\s+note\\s+that\\b".data),
      type := SuggKind.style, category := ("weak-opening".data),
      confidence := Frac.mk10 8 10,
      replacement := RuleReplacement.lit (("".data)) },
    { id := ("stuff-things".data),
      pattern := ("\\b(stuff|things)\\s+(?=that|which|like|such)".data),
      type := SuggKind.style, category := ("vague".data),
      confidence := Frac.mk10 8 10,
      replacement := RuleReplacement.lit (("[be more specific]".data)) },
    { id := ("a-lot-of".data),
      pattern := ("\\ba\\s+lot\\s+of\\b".data),
      type := SuggKind.style, category := ("vague".data),
      confidence := Frac.mk10 7 10,
      replacement := RuleReplacement.lit (("many".data)) },
    { id := ("very-long-sentence".data),
      pattern := ("\\b\\w+(?:\\s+\\w+)\x7b40,\x7d\\.".data),
      type := SuggKind.style, category := ("sentence-length".data),
      confidence := Frac.mk10 6 10,
      replacement := RuleReplacement.fn veryLongSentenceFn },
    { id := ("very-adverb".data),
      pattern := ("\\bvery\\s+(quickly|slowly|carefully|easily|clearly|obviously|definitely|certainly|probably|possibly)\\b".data),
      type := SuggKind.style, category := ("adverb-overuse".data),
      confidence := Frac.mk10 7 10,
      replacement := RuleReplacement.fn veryAdverbFn } ]

/-- The `spellingRules` table of `spelling-rules.ts` (39 rules). -/
def spellingRules : List EngineRule :=
  [ { id := ("recieve".data),
      pattern := ("\\brecieve\\b".data),
      type := SuggKind.spelling, category := ("ie-ei".data),
      confidence := Frac.mk10 95 100,
      replacement := RuleReplacement.lit (("receive".data)) },
    { id := ("seperate".data),
      pattern := ("\\bseperate\\b".data),
      type := SuggKind.spelling, category := ("vowel-confusion".data),
      confidence := Frac.mk10 95 100,
      replacement := RuleReplacement.lit (("separate".data)) },
    { id := ("definately".data),
      pattern := ("\\bdefinately\\b".data),
      type := SuggKind.spelling, category := ("vowel-confusion".data),
      confidence := Frac.mk10 95 100,
      replacement := RuleReplacement.lit (("definitely".data)) },
    { id := ("beleive".data),
      pattern := ("\\bbeleive\\b".data),
      type := SuggKind.spelling, category := ("ie-ei".data),
      confidence := Frac.mk10 95 100,
      replacement := RuleReplacement.lit (("believe".data)) },
    { id := ("acheive".data),
      pattern := ("\\bacheive\\b".data),
      type := SuggKind.spelling, category := ("ie-ei".data),
      confidence := Frac.mk10 95 100,
      replacement := RuleReplacement.lit (("achieve".data)) },
    { id := ("releive".data),
      pattern := ("\\breleive\\b".data),
      type := SuggKind.spelling, category := ("ie-ei".data),
      confidence := Frac.mk10 95 100,
      replacement := RuleReplacement.lit (("relieve".data)) },
    { id := ("wierd".data),
      pattern := ("\\bwierd\\b".data),
      type := SuggKind.spelling, category := ("ie-ei".data),
      confidence := Frac.mk10 95 100,
      replacement := RuleReplacement.lit (("weird".data)) },
    { id := ("accomodate".data),
      pattern := ("\\baccomodate\\b".data),
      type := SuggKind.spelling, category := ("double-letter".data),
      confidence := Frac.mk10 95 100,
      replacement := RuleReplacement.lit (("accommodate".data)) },
    { id := ("occured".data),
      pattern := ("\\boccured\\b".data),
      type := SuggKind.spelling, category := ("double-letter".data),
      confidence := Frac.mk10 95 100,
      replacement := RuleReplacement.lit (("occurred".data)) },
    { id := ("begining".data),
      pattern := ("\\bbegining\\b".data),
      type := SuggKind.spelling, category := ("double-letter".data),
      confidence := Frac.mk10 95 100,
      replacement := RuleReplacement.lit (("beginning".data)) },
    { id := ("comming".data),
      pattern := ("\\bcomming\\b".data),
      type := SuggKind.spelling, category := ("double-letter".data),
      confidence := Frac.mk10 95 100,
      replacement := RuleReplacement.lit (("coming".data)) },
    { id := ("runing".data),
      pattern := ("\\bruning\\b".data),
      type := SuggKind.spelling, category := ("double-letter".data),
      confidence := Frac.mk10 95 100,
      replacement := RuleReplacement.lit (("running".data)) },
    { id := ("goverment".data),
      pattern := ("\\bgoverment\\b".data),
      type := SuggKind.spelling, category := ("silent-letter".data),
      confidence := Frac.mk10 95 100,
      replacement := RuleReplacement.lit (("government".data)) },
    { id := ("enviroment".data),
      pattern := ("\\benviroment\\b".data),
      type := SuggKind.spelling, category := ("silent-letter".data),
      confidence := Frac.mk10 95 100,
      replacement := RuleReplacement.lit (("environment".data)) },
    { id := ("parlament".data),
      pattern := ("\\bparlament\\b".data),
      type := SuggKind.spelling, category := ("silent-letter".data),
      confidence := Frac.mk10 95 100,
      replacement := RuleReplacement.lit (("parliament".data)) },
    { id := ("calender".data),
      pattern := ("\\bcalender\\b".data),
      type := SuggKind.spelling, category := ("vowel-confusion".data),
      confidence := Frac.mk10 95 100,
      replacement := RuleReplacement.lit (("calendar".data)) },
    { id := ("cemetary".data),
      pattern := ("\\bcemetary\\b".data),
      type := SuggKind.spelling, category := ("vowel-confusion".data),
      confidence := Frac.mk10 95 100,
      replacement := RuleReplacement.lit (("cemetery".data)) },
    { id := ("independant".data),
      pattern := ("\\bindependant\\b".data),
      type := SuggKind.spelling, category := ("vowel-confusion".data),
      confidence := Frac.mk10 95 100,
      replacement := RuleReplacement.lit (("independent".data)) },
    { id := ("maintainance".data),
      pattern := ("\\bmaintainance\\b".data),
      type := SuggKind.spelling, category := ("vowel-confusion".data),
      confidence := Frac.mk10 95 100,
      replacement := RuleReplacement.lit (("maintenance".data)) },
    { id := ("alot".data),
      pattern := ("\\balot\\b".data),
      type := SuggKind.spelling, category := ("word-spacing".data),
      confidence := Frac.mk10 95 100,
      replacement := RuleReplacement.lit (("a lot".data)) },
    { id := ("allright".data),
      pattern := ("\\ballright\\b".data),
      type := SuggKind.spelling, category := ("word-spacing".data),
      confidence := Frac.mk10 9 10,
      replacement := RuleReplacement.lit (("all right".data)) },
    { id := ("noone".data),
      pattern := ("\\bnoone\\b".data),
      type := SuggKind.spelling, category := ("word-spacing".data),
      confidence := Frac.mk10 95 100,
      replacement := RuleReplacement.lit (("no one".data)) },
    { id := ("arguement".data),
      pattern := ("\\barguement\\b".data),
      type := SuggKind.spelling, category := ("suffix".data),
      confidence := Frac.mk10 95 100,
      replacement := RuleReplacement.lit (("argument".data)) },
    { id := ("judgement".data),
      pattern := ("\\bjudgement\\b".data),
      type := SuggKind.spelling, category := ("suffix".data),
      confidence := Frac.mk10 8 10,
      replacement := RuleReplacement.lit (("judgment".data)) },
    { id := ("acknowledgement".data),
      pattern := ("\\backnowledgement\\b".data),
      type := SuggKind.spelling, category := ("suffix".data),
      confidence := Frac.mk10 8 10,
      replacement := RuleReplacement.lit (("acknowledgment".data)) },
    { id := ("loose-lose".data),
      pattern := ("\\bloose\\s+(?=weight|money|time|interest|hope|control)".data),
      type := SuggKind.spelling, category := ("confused-words".data),
      confidence := Frac.mk10 9 10,
      replacement := RuleReplacement.lit (("lose".data)) },
    { id := ("affect-effect".data),
      pattern := ("\\baffect\\s+(?=is|was|will|has|had|on)".data),
      type := SuggKind.spelling, category := ("confused-words".data),
      confidence := Frac.mk10 8 10,
      replacement := RuleReplacement.lit (("effect".data)) },
    { id := ("accept-except".data),
      pattern := ("\\baccept\\s+(?=for|that|when|if)".data),
      type := SuggKind.spelling, category := ("confused-words".data),
      confidence := Frac.mk10 85 100,
      replacement := RuleReplacement.lit (("except".data)) },
    { id := ("necesary".data),
      pattern := ("\\bnecesary\\b".data),
      type := SuggKind.spelling, category := ("common-misspelling".data),
      confidence := Frac.mk10 95 100,
      replacement := RuleReplacement.lit (("necessary".data)) },
    { id := ("embarass".data),
      pattern := ("\\bembaras\x7b1,2\x7d\\b".data),
      type := SuggKind.spelling, category := ("common-misspelling".data),
      confidence := Frac.mk10 95 100,
      replacement := RuleReplacement.lit (("embarrass".data)) },
    { id := ("recomend".data),
      pattern := ("\\brecomend\\b".data),
      type := SuggKind.spelling, category := ("common-misspelling".data),
      confidence := Frac.mk10 95 100,
      replacement := RuleReplacement.lit (("recommend".data)) },
    { id := ("occassion".data),
      pattern := ("\\boccassion\\b".data),
      type := SuggKind.spelling, category := ("common-misspelling".data),
      confidence := Frac.mk10 95 100,
      replacement := RuleReplacement.lit (("occasion".data)) },
    { id := ("privilege".data),
      pattern := ("\\bprivilege\\b".data),
      type := SuggKind.spelling, category := ("common-misspelling".data),
      confidence := Frac.mk10 95 100,
      replacement := RuleReplacement.lit (("privilege".data)) },
    { id := ("buisness".data),
      pattern := ("\\bbuisness\\b".data),
      type := SuggKind.spelling, category := ("professional".data),
      confidence := Frac.mk10 95 100,
      replacement := RuleReplacement.lit (("business".data)) },
    { id := ("managment".data),
      pattern := ("\\bmanagment\\b".data),
      type := SuggKind.spelling, category := ("professional".data),
      confidence := Frac.mk10 95 100,
      replacement := RuleReplacement.lit (("management".data)) },
    { id := ("experiance".data),
      pattern := ("\\bexperiance\\b".data),
      type := SuggKind.spelling, category := ("professional".data),
      confidence := Frac.mk10 95 100,
      replacement := RuleReplacement.lit (("experience".data)) },
    { id := ("responsable".data),
      pattern := ("\\bresponsable\\b".data),
      type := SuggKind.spelling, category := ("professional".data),
      confidence := Frac.mk10 95 100,
      replacement := RuleReplacement.lit (("responsible".data)) },
    { id := ("recieve-data".data),
      pattern := ("\\brecieve\\s+(?=data|information|message|signal)".data),
      type := SuggKind.spelling, category := ("technology".data),
      confidence := Frac.mk10 95 100,
      replacement := RuleReplacement.lit (("receive".data)) },
    { id := ("developement".data),
      pattern := ("\\bdevelopement\\b".data),
      type := SuggKind.spelling, category := ("technology".data),
      confidence := Frac.mk10 95 100,
      replacement := RuleReplacement.lit (("development".data)) } ]

/-- The `problematicRuleIds` list of `ContextAwareRuleSelector`. -/
def problematicRuleIds : List Str :=
  [ ("there-are-many".data),
    ("a-lot-of".data),
    ("it-is-important".data),
    ("basically".data),
    ("there-are-many-contextual".data),
    ("a-lot-of-contextual".data),
    ("it-is-important-contextual".data),
    ("basically-contextual".data) ]

/-- `ContextAwareRuleSelector.shouldUseContextAwareRule(ruleId)`. -/
def shouldUseContextAwareRule (ruleId : Str) : Bool :=
  List.contains problematicRuleIds ruleId

/-- `this.allRules` of the `GrammarEngine` constructor with the default
`useEnhancedStyleRules = true`: the grammar rules plus the style rules not
claimed by the context-aware processor (spelling rules are handled by the
enhanced spelling checker). -/
def allRules : List EngineRule :=
  grammarRules ++ List.filter (fun rule => !shouldUseContextAwareRule rule.id) styleRules

end EngineRuleDefs

section EngineDefs

/-!
### `GrammarEngine.applyRule` / `EnhancedSpellingChecker` /
`GrammarEngine.checkText` (`grammar-engine.ts`, `enhanced-spelling.ts`)

Pattern matching for the table rules goes through the abstract executor
(`RegexExec`); the dictionary tokenizer `/\b[a-zA-Z]{3,}\b/g` is embedded
concretely (its matches are exactly the maximal `\w`-runs that consist of
letters only and have length at least 3, since a shorter alternative
inside a run always fails the trailing `\b`).  `processingTime` is
wall-clock time and is not modelled.
-/

/-- `GrammarEngine.applyRule(text, rule)`: one `GrammarError` per match of
the rule's (global) pattern, with a ±30-character context window. -/
def applyRule (exec : RegexExec) (text : Str) (rule : EngineRule) : List GrammarError :=
  List.map (fun m =>
    { type := rule.type, ruleId := rule.id, category := rule.category,
      confidence := rule.confidence, offset := m.index, length := m.text.length,
      text := m.text,
      replacement :=
        match rule.replacement with
        | RuleReplacement.lit s => s
        | RuleReplacement.fn f => f m.text,
      context := jsSub text (m.index - 30) (min text.length (m.index + m.text.length + 30)) })
    (exec rule.pattern text)

/-- The matches of `/\b[a-zA-Z]{3,}\b/g` as `(index, word)` pairs: scan for
maximal `\w`-runs and keep the all-letter runs of length at least 3. -/
def alphaTokensGo : Nat → Nat → Str → List (Nat × Str)
  | 0, _, _ => []
  | _ + 1, _, [] => []
  | fuel + 1, pos, c :: rest =>
      if isWordChar c then
        if (c :: List.takeWhile isWordChar rest).all isAlphaChar &&
            decide (3 ≤ (c :: List.takeWhile isWordChar rest).length) then
          (pos, c :: List.takeWhile isWordChar rest) ::
            alphaTokensGo fuel (pos + (c :: List.takeWhile isWordChar rest).length)
              (List.dropWhile isWordChar rest)
        else
          alphaTokensGo fuel (pos + (c :: List.takeWhile isWordChar rest).length)
            (List.dropWhile isWordChar rest)
      else alphaTokensGo fuel (pos + 1) rest

/-- The `(m.index, m[0])` matches of `/\b[a-zA-Z]{3,}\b/g` over a text. -/
def alphaTokens (text : Str) : List (Nat × Str) := alphaTokensGo text.length 0 text

/-- `EnhancedSpellingChecker.applyDictionary(text, existing)`: flag each
tokenized word that does not overlap an existing error and fails the
dictionary lookup, suggesting the top dictionary suggestion (or the word
itself when there is none). -/
def applyDictionary (d : DictState) (text : Str) (existing : List GrammarError) :
    List GrammarError :=
  List.filterMap (fun t =>
    if List.any existing (fun e =>
        decide (e.offset ≤ t.1) && decide (t.1 < e.offset + e.length)) then none
    else if dictIsValid d t.2 then none
    else
      some
        { type := SuggKind.spelling, ruleId := ("dictionary".data),
          category := ("dictionary".data), confidence := Frac.mk10 6 10,
          offset := t.1, length := t.2.length, text := t.2,
          replacement := List.headD (dictSuggestions d t.2 3) t.2,
          context := jsSub text (t.1 - 30) (min text.length (t.1 + t.2.length + 30)) })
    (alphaTokens text)

/-- The `stats` sub-record of `EnhancedSpellingResult`. -/
structure EnhancedSpellingStats where
  wordsChecked : Nat
  ruleBasedErrors : Nat
  dictionaryErrors : Nat
deriving DecidableEq, Repr

/-- `EnhancedSpellingResult`. -/
structure EnhancedSpellingResult where
  errors : List GrammarError
  stats : EnhancedSpellingStats

/-- The `ruleErrors` of `checkSpelling`: every spelling-table rule applied
to the text. -/
def spellRuleErrors (exec : RegexExec) (text : Str) : List GrammarError :=
  List.flatMap spellingRules (applyRule exec text)

/-- `EnhancedSpellingChecker.checkSpelling(text)`: regex rules first, then
the dictionary pass over the not-yet-flagged tokens
(`countWords` is the number of `/\b[a-zA-Z]{3,}\b/g` matches). -/
def checkSpelling (exec : RegexExec) (d : DictState) (text : Str) : EnhancedSpellingResult :=
  { errors := spellRuleErrors exec text ++ applyDictionary d text (spellRuleErrors exec text),
    stats :=
      { wordsChecked := (alphaTokens text).length,
        ruleBasedErrors := (spellRuleErrors exec text).length,
        dictionaryErrors := (applyDictionary d text (spellRuleErrors exec text)).length } }

/-- The conversion of one enhanced style suggestion to a `GrammarError`
inside `checkText` (`ruleId || 'unknown'`, ±30-character context, the
replacement echoed as the `suggestions` list, validation metadata kept). -/
def styleSuggestionToError (text : Str) (s : GrammarSuggestion) : GrammarError :=
  { type := s.type,
    ruleId := if s.ruleId = [] then ("unknown".data) else s.ruleId,
    category := s.category, confidence := s.confidence,
    offset := s.start, length := s.stop - s.start,
    text := s.text, replacement := s.replacement,
    context := jsSub text (s.start - 30) (min text.length (s.stop + 30)),
    suggestionsList := some [s.replacement],
    validated := some s.validated,
    validationRisk := s.validationRisk }

/-- All errors collected by `checkText` before sorting and overlap
resolution: table rules, then the enhanced style pipeline, then the
enhanced spelling checker. -/
def collectAllErrors (validate : StyleValidator) (exec : RegexExec) (d : DictState)
    (text : Str) : List GrammarError :=
  List.flatMap allRules (applyRule exec text) ++
    List.map (styleSuggestionToError text) (processStyleSuggestions validate exec text) ++
    (checkSpelling exec d text).errors

/-- The `stats` record of `GrammarCheckResult` (without the wall-clock
`processingTime`). -/
structure CheckStats where
  totalChecks : Nat
  grammarErrors : Nat
  spellingErrors : Nat
  styleErrors : Nat
  enhancedSpelling : EnhancedSpellingStats
deriving DecidableEq, Repr

/-- `GrammarCheckResult`. -/
structure GrammarCheckResult where
  errors : List GrammarError
  stats : CheckStats

/-- The `stats` record built by `checkText` from the enhanced-spelling
stats and the overlap-resolved error list
(`totalChecks = this.allRules.length + 1` under the default options). -/
def checkStatsOf (spellingStats : EnhancedSpellingStats)
    (filteredErrors : List GrammarError) : CheckStats :=
  { totalChecks := allRules.length + 1,
    grammarErrors :=
      (List.filter (fun e => decide (e.type = SuggKind.grammar)) filteredErrors).length,
    spellingErrors :=
      (List.filter (fun e => decide (e.type = SuggKind.spelling)) filteredErrors).length,
    styleErrors :=
      (List.filter (fun e => decide (e.type = SuggKind.style)) filteredErrors).length,
    enhancedSpelling := spellingStats }

/-- `GrammarEngine.checkText(text)` with the default
`useEnhancedStyleRules = true` (the enhanced-style `try` branch; its
`catch` fallback is unreachable in this model): collect, sort by offset,
resolve overlaps, count by kind. -/
def checkText (validate : StyleValidator) (exec : RegexExec) (d : DictState)
    (text : Str) : GrammarCheckResult :=
  { errors := removeOverlappingErrors (sortByOffset (collectAllErrors validate exec d text)),
    stats :=
      checkStatsOf (checkSpelling exec d text).stats
        (removeOverlappingErrors (sortByOffset (collectAllErrors validate exec d text))) }

end EngineDefs

section ToneDefs

/-!
### `analyzeTone` (`app/api/tone/route.ts`)

Each indicator is counted with
`new RegExp("\\b" + indicator.replace(/'/g, "\\'") + "\\b", "gi")` — a
case-insensitive whole-word literal (the apostrophe escape is a no-op for
matching).  Every indicator starts and ends with a letter, so the two
`\b` anchors reduce to "no word character adjacent".  The `words`
variable of the source is computed but never read and is not modelled.
`toneScores` is a JS object in insertion order: the eight indicator keys
first, with `excited` / `inquisitive` appended only when their
punctuation conditions fire.
-/

/-- The `toneIndicators` table of `analyzeTone`, in insertion order. -/
def toneIndicators : List (Str × List Str) :=
  [ (("positive".data),
      [ ("excellent".data),
        ("amazing".data),
        ("wonderful".data),
        ("fantastic".data),
        ("great".data),
        ("good".data),
        ("love".data),
        ("like".data),
        ("happy".data),
        ("excited".data),
        ("thrilled".data),
        ("delighted".data),
        ("pleased".data),
        ("satisfied".data),
        ("awesome".data),
        ("brilliant".data),
        ("outstanding".data),
        ("superb".data),
        ("magnificent".data),
        ("marvelous".data),
        ("terrific".data) ]),
    (("negative".data),
      [ ("terrible".data),
        ("awful".data),
        ("horrible".data),
        ("bad".data),
        ("hate".data),
        ("dislike".data),
        ("sad".data),
        ("angry".data),
        ("frustrated".data),
        ("disappointed".data),
        ("annoyed".data),
        ("upset".data),
        ("worried".data),
        ("concerned".data),
        ("dreadful".data),
        ("appalling".data),
        ("disgusting".data),
        ("revolting".data),
        ("pathetic".data),
        ("useless".data) ]),
    (("formal".data),
      [ ("therefore".data),
        ("furthermore".data),
        ("consequently".data),
        ("moreover".data),
        ("nevertheless".data),
        ("however".data),
        ("thus".data),
        ("hence".data),
        ("accordingly".data),
        ("subsequently".data),
        ("notwithstanding".data),
        ("pursuant".data),
        ("aforementioned".data),
        ("heretofore".data),
        ("whereas".data),
        ("whereby".data) ]),
    (("informal".data),
      [ ("hey".data),
        ("hi".data),
        ("yeah".data),
        ("yep".data),
        ("nope".data),
        ("gonna".data),
        ("wanna".data),
        ("gotta".data),
        ("kinda".data),
        ("sorta".data),
        ("dunno".data),
        ("ain".data) ++ [apos] ++ ("t".data),
        ("y".data) ++ [apos] ++ ("all".data),
        ("folks".data),
        ("guys".data),
        ("stuff".data),
        ("things".data) ]),
    (("confident".data),
      [ ("definitely".data),
        ("certainly".data),
        ("absolutely".data),
        ("undoubtedly".data),
        ("clearly".data),
        ("obviously".data),
        ("surely".data),
        ("indeed".data),
        ("precisely".data),
        ("exactly".data),
        ("guaranteed".data),
        ("assured".data),
        ("confident".data) ]),
    (("uncertain".data),
      [ ("maybe".data),
        ("perhaps".data),
        ("possibly".data),
        ("might".data),
        ("could".data),
        ("probably".data),
        ("seems".data),
        ("appears".data),
        ("suggests".data),
        ("indicates".data),
        ("presumably".data),
        ("allegedly".data),
        ("supposedly".data) ]),
    (("friendly".data),
      [ ("thanks".data),
        ("thank you".data),
        ("please".data),
        ("welcome".data),
        ("appreciate".data),
        ("glad".data),
        ("nice".data),
        ("kind".data),
        ("helpful".data),
        ("wonderful".data),
        ("pleasure".data),
        ("delighted".data),
        ("honored".data) ]),
    (("aggressive".data),
      [ ("must".data),
        ("should".data),
        ("need to".data),
        ("have to".data),
        ("required".data),
        ("mandatory".data),
        ("demand".data),
        ("insist".data),
        ("force".data),
        ("compel".data),
        ("urgent".data),
        ("critical".data),
        ("essential".data) ]) ]

/-- Count the global case-insensitive whole-word matches of `ind` (given
lower-case, starting and ending in a word character): at each position
with no word character before it, try the literal; on success require no
word character after it and resume past the match. -/
def countWWGo (ind : Str) : Nat → Option Char → Str → Nat
  | 0, _, _ => 0
  | _ + 1, _, [] => 0
  | fuel + 1, prev, c :: rest =>
      if boundaryBefore prev then
        match parseLitCI ind (c :: rest) with
        | some rem =>
            if boundaryAfterOk rem then 1 + countWWGo ind fuel (List.getLast? ind) rem
            else countWWGo ind fuel (some c) rest
        | none => countWWGo ind fuel (some c) rest
      else countWWGo ind fuel (some c) rest

/-- `(text.match(wholeWordRegex) ?? []).length` for one indicator. -/
def countWholeWord (ind text : Str) : Nat := countWWGo ind text.length none text

/-- JS object write `scores[tone] = (scores[tone] || 0) + delta`: update in
place when the key exists, else append (insertion order). -/
def bumpScore (scores : List (Str × Nat)) (tone : Str) (delta : Nat) : List (Str × Nat) :=
  if List.any scores (fun p => decide (p.1 = tone)) then
    List.map (fun p => if p.1 = tone then (p.1, p.2 + delta) else p) scores
  else scores ++ [(tone, delta)]

/-- The `toneScores` record after indicator counting and the
punctuation / sentence-length adjustments. -/
def toneScores (text : Str) : List (Str × Nat) :=
  let base := List.map
    (fun p => (p.1, List.foldl (fun acc ind => acc + countWholeWord ind text) 0 p.2))
    toneIndicators
  let sentences :=
    List.filter (fun s => !(List.isEmpty (jsTrim s))) (jsSplit (fun c => isSentencePunct c) text)
  let exclamationCount := (List.filter (fun s => strContains s (['!'])) sentences).length
  let questionCount := (List.filter (fun s => strContains s (['?'])) sentences).length
  let sumLen := List.foldl (fun acc s => acc + (jsSplitWs (jsTrim s)).length) 0 sentences
  let avg : Frac :=
    if sentences.length = 0 then Frac.ofNat 0 else Frac.mk10 sumLen sentences.length
  let s1 :=
    if Frac.blt (Frac.mk10 (3 * sentences.length) 10) (Frac.ofNat exclamationCount) then
      bumpScore base ("excited".data) exclamationCount
    else base
  let s2 :=
    if Frac.blt (Frac.mk10 (2 * sentences.length) 10) (Frac.ofNat questionCount) then
      bumpScore s1 ("inquisitive".data) questionCount
    else s1
  if Frac.blt (Frac.ofNat 20) avg then bumpScore s2 ("formal".data) 2
  else if Frac.blt avg (Frac.ofNat 10) then bumpScore s2 ("informal".data) 2
  else s2

/-- The `toneMapping` table. -/
def toneMapping : List (Str × Str) :=
  [ (("positive".data), ("positive".data)),
    (("negative".data), ("negative".data)),
    (("formal".data), ("formal".data)),
    (("informal".data), ("casual".data)),
    (("confident".data), ("confident".data)),
    (("uncertain".data), ("tentative".data)),
    (("friendly".data), ("friendly".data)),
    (("aggressive".data), ("assertive".data)),
    (("excited".data), ("enthusiastic".data)),
    (("inquisitive".data), ("curious".data)) ]

/-- `toneMapping[key] || "neutral"`. -/
def toneMappingLookup (t : Str) : Str :=
  Option.getD (Option.map Prod.snd (List.find? (fun p => decide (p.1 = t)) toneMapping))
    ("neutral".data)

/-- `analyzeTone(text)`. -/
def analyzeTone (text : Str) : Str :=
  let scores := toneScores text
  let maxScore : Nat := List.foldl (fun acc p => max acc p.2) 0 scores
  if maxScore = 0 then ("neutral".data)
  else
    let dominant :=
      Option.map Prod.fst (List.find? (fun p => decide (p.2 = maxScore)) scores)
    toneMappingLookup (Option.getD dominant ("neutral".data))

end ToneDefs

section CacheClaimInputs

/-!
### Concrete validation contexts for the cache-key collision

Two texts of the same length whose sentence structure differs at the same
match span: `"Because we saw a lot of dogs."` is classified a fragment
(subordinating-conjunction opener), `"Chasing we saw a lot of dogs."` is
not.  With equal rule id, offset, length and replacement, the two contexts
produce the same cache key although validation judges them differently.
-/

/-- Validation context over the fragment-classified text. -/
def cacheCtxFragment : SuggestionContext :=
  { originalText := ("Because we saw a lot of dogs.".data), offset := 15, length := 8,
    replacement := ("many".data), ruleId := ("a-lot-of".data), ruleType := SuggKind.style,
    originalConfidence := Frac.mk10 7 10 }

/-- Validation context over the complete-sentence text of equal length. -/
def cacheCtxComplete : SuggestionContext :=
  { originalText := ("Chasing we saw a lot of dogs.".data), offset := 15, length := 8,
    replacement := ("many".data), ruleId := ("a-lot-of".data), ruleType := SuggKind.style,
    originalConfidence := Frac.mk10 7 10 }

end CacheClaimInputs

section EngineClaimInputs

/-!
### Concrete inputs for the engine claims

`execNone` is the executor reporting no matches (vacuously sound); with
the dictionary file missing, every tokenized word of the subject text is
then flagged by the dictionary pass, which provides concrete nonempty
engine outputs for the witnesses.
-/

/-- The executor with no matches. -/
def execNone : RegexExec := fun _ _ => []

/-- Offset validity of one error against the checked text: positive
length, in-bounds span, and the recorded text is the substring at the
span. -/
abbrev ErrorValid (text : Str) (e : GrammarError) : Prop :=
  0 < e.length ∧ e.offset + e.length ≤ text.length ∧
    jsSub text e.offset (e.offset + e.length) = e.text

/-- A low-confidence error spanning `[0, 5)`. -/
def ovErrLow : GrammarError :=
  { type := SuggKind.style, ruleId := ("low-rule".data), category := ("cat".data),
    confidence := Frac.mk10 5 10, offset := 0, length := 5,
    text := ("aaaaa".data), replacement := ("b".data), context := ("ctx".data) }

/-- A higher-confidence error spanning `[2, 7)`, overlapping `ovErrLow`. -/
def ovErrHigh : GrammarError :=
  { type := SuggKind.grammar, ruleId := ("high-rule".data), category := ("cat".data),
    confidence := Frac.mk10 9 10, offset := 2, length := 5,
    text := ("ccccc".data), replacement := ("d".data), context := ("ctx".data) }

/-- The dictionary error produced on the text `"hello"` when the word list
is missing and no regex rule matches. -/
def helloDictError : GrammarError :=
  { type := SuggKind.spelling, ruleId := ("dictionary".data),
    category := ("dictionary".data), confidence := Frac.mk10 6 10,
    offset := 0, length := 5, text := ("hello".data),
    replacement := ("hello".data), context := ("hello".data) }

end EngineClaimInputs

/-! ### Theorems -/

theorem jsFindIndex_eq_none {α : Type} {p : α → Bool} :
    ∀ {l : List α}, jsFindIndex p l = none → ∀ x ∈ l, p x = false := by
  intro l
  induction l with
  | nil => intro _ x hx; cases hx
  | cons a as ih =>
      intro h x hx
      by_cases ha : p a = true
      · rw [jsFindIndex, if_pos ha] at h; cases h
      · rw [jsFindIndex, if_neg ha] at h
        have h' : jsFindIndex p as = none := by
          cases hfi : jsFindIndex p as
          · rfl
          · rw [hfi] at h; cases h
        rcases List.mem_cons.mp hx with rfl | hx'
        · exact Bool.eq_false_iff.mpr ha
        · exact ih h' x hx'

theorem jsFindIndex_eq_some {α : Type} {p : α → Bool} :
    ∀ {l : List α} {i : Nat}, jsFindIndex p l = some i →
    ∃ hi : i < l.length, p (l.get ⟨i, hi⟩) = true ∧
      ∀ j (hj : j < l.length), j < i → p (l.get ⟨j, hj⟩) = false := by
  intro l
  induction l with
  | nil => intro i h; cases h
  | cons a as ih =>
      intro i h
      by_cases ha : p a = true
      · rw [jsFindIndex, if_pos ha] at h
        cases h
        refine ⟨Nat.succ_pos _, ha, ?_⟩
        intro j hj hji
        omega
      · rw [jsFindIndex, if_neg ha] at h
        cases hfi : jsFindIndex p as with
        | none => rw [hfi] at h; cases h
        | some k =>
            rw [hfi] at h
            simp only [Option.map] at h
            cases h
            obtain ⟨hk, hpk, hbefore⟩ := ih hfi
            refine ⟨Nat.succ_lt_succ hk, hpk, ?_⟩
            intro j hj hji
            match j with
            | 0 => exact Bool.eq_false_iff.mpr ha
            | j' + 1 =>
                exact hbefore j' (Nat.lt_of_succ_lt_succ hj) (Nat.lt_of_succ_lt_succ hji)

theorem doErrorsOverlap_iff {a b : GrammarError} :
    doErrorsOverlap a b = true ↔
      b.offset < a.offset + a.length ∧ a.offset < b.offset + b.length := by
  rw [doErrorsOverlap]
  rw [Bool.not_eq_eq_eq_not]
  simp only [Bool.not_true, Bool.or_eq_false_iff, decide_eq_false_iff_not, not_le]

theorem doErrorsOverlap_symm (a b : GrammarError) :
    doErrorsOverlap a b = doErrorsOverlap b a := by
  rw [doErrorsOverlap, doErrorsOverlap, Bool.or_comm]

theorem resolveStep_eq_append {acc : List GrammarError} {e : GrammarError}
    (h : jsFindIndex (fun existing => doErrorsOverlap e existing) acc = none) :
    resolveStep acc e = acc ++ [e] := by
  unfold resolveStep; rw [h]

theorem resolveStep_eq_replace {acc : List GrammarError} {e : GrammarError} {i : Nat}
    (h : jsFindIndex (fun existing => doErrorsOverlap e existing) acc = some i) :
    resolveStep acc e = resolveReplace acc e i := by
  unfold resolveStep; rw [h]

theorem resolveReplace_eq_of_get {acc : List GrammarError} {e : GrammarError} {i : Nat}
    (hi : i < acc.length) :
    resolveReplace acc e i =
      if Frac.blt (acc.get ⟨i, hi⟩).confidence e.confidence then acc.set i e else acc := by
  unfold resolveReplace
  rw [List.getElem?_eq_getElem hi]
  rfl

/-- Membership after one resolution step: every element either survived from
the accumulator or is the incoming error. -/
theorem resolveStep_subset {acc : List GrammarError} {e x : GrammarError}
    (hx : x ∈ resolveStep acc e) : x ∈ acc ∨ x = e := by
  cases hfi : jsFindIndex (fun existing => doErrorsOverlap e existing) acc with
  | none =>
      rw [resolveStep_eq_append hfi] at hx
      rcases List.mem_append.mp hx with h | h
      · exact Or.inl h
      · exact Or.inr (List.mem_singleton.mp h)
  | some i =>
      obtain ⟨hi, _, _⟩ := jsFindIndex_eq_some hfi
      rw [resolveStep_eq_replace hfi, resolveReplace_eq_of_get hi] at hx
      by_cases hc : Frac.blt (acc.get ⟨i, hi⟩).confidence e.confidence
      · rw [if_pos hc] at hx
        rcases List.mem_or_eq_of_mem_set hx with h | h
        · exact Or.inl h
        · exact Or.inr h
      · rw [if_neg hc] at hx; exact Or.inl hx

/-- Key step lemma: if the accumulator is pairwise non-overlapping and all of
its elements start no later than `e`, then at most one accumulator entry can
overlap `e`, and one resolution step preserves pairwise non-overlap. -/
theorem resolveStep_noOv {acc : List GrammarError} {e : GrammarError}
    (hno : NoOv acc) (hoff : ∀ x ∈ acc, x.offset ≤ e.offset) :
    NoOv (resolveStep acc e) := by
  cases hfi : jsFindIndex (fun existing => doErrorsOverlap e existing) acc with
  | none =>
      have hall := jsFindIndex_eq_none hfi
      rw [resolveStep_eq_append hfi]
      refine List.pairwise_append.mpr ⟨hno, List.pairwise_singleton _ _, ?_⟩
      intro x hx y hy
      rw [List.mem_singleton] at hy
      subst hy
      rw [doErrorsOverlap_symm]
      exact hall x hx
  | some i =>
      obtain ⟨hi, hpi, _⟩ := jsFindIndex_eq_some hfi
      rw [resolveStep_eq_replace hfi, resolveReplace_eq_of_get hi]
      by_cases hc : Frac.blt (acc.get ⟨i, hi⟩).confidence e.confidence
      · rw [if_pos hc]
        -- at most one entry overlaps `e`: two such entries would overlap
        -- each other, because both start at or before `e.offset`
        have huniq : ∀ m (hm : m < acc.length), m ≠ i →
            doErrorsOverlap e (acc.get ⟨m, hm⟩) = false := by
          intro m hm hmi
          cases hovm : doErrorsOverlap e (acc.get ⟨m, hm⟩) with
          | false => rfl
          | true =>
              exfalso
              have h1 := doErrorsOverlap_iff.mp hpi
              have h2 := doErrorsOverlap_iff.mp hovm
              have hoi : (acc.get ⟨i, hi⟩).offset ≤ e.offset :=
                hoff _ (acc.get_mem i hi)
              have hom : (acc.get ⟨m, hm⟩).offset ≤ e.offset :=
                hoff _ (acc.get_mem m hm)
              have hpair := List.pairwise_iff_getElem.mp hno
              simp only [List.get_eq_getElem] at h1 h2 hoi hom
              rcases Nat.lt_or_ge m i with hlt | hge
              · have hmi2 := hpair m i hm hi hlt
                rw [Bool.eq_false_iff] at hmi2
                exact hmi2 (doErrorsOverlap_iff.mpr ⟨by omega, by omega⟩)
              · have higt : i < m := Nat.lt_of_le_of_ne hge (Ne.symm hmi)
                have hmi2 := hpair i m hi hm higt
                rw [Bool.eq_false_iff] at hmi2
                exact hmi2 (doErrorsOverlap_iff.mpr ⟨by omega, by omega⟩)
        rw [NoOv, List.pairwise_iff_getElem]
        intro k l hk hl hkl
        have hk' : k < acc.length := by simpa using hk
        have hl' : l < acc.length := by simpa using hl
        rw [List.getElem_set, List.getElem_set]
        by_cases hki : i = k <;> by_cases hli : i = l
        · omega
        · rw [if_pos hki, if_neg hli]
          have := huniq l hl' (fun h => hli h.symm)
          simpa using this
        · rw [if_neg hki, if_pos hli]
          have := huniq k hk' (fun h => hki h.symm)
          rw [doErrorsOverlap_symm] at this
          simpa using this
        · rw [if_neg hki, if_neg hli]
          exact List.pairwise_iff_getElem.mp hno k l hk' hl' hkl
      · rw [if_neg hc]; exact hno

/-- The whole resolution loop preserves and establishes pairwise non-overlap,
provided the incoming list is processed in nondecreasing offset order. -/
theorem foldl_resolveStep_noOv :
    ∀ (l acc : List GrammarError), NoOv acc →
      (∀ x ∈ acc, ∀ y ∈ l, x.offset ≤ y.offset) →
      List.Pairwise (fun a b => a.offset ≤ b.offset) l →
      NoOv (List.foldl resolveStep acc l) := by
  intro l
  induction l with
  | nil => intro acc h _ _; exact h
  | cons e rest ih =>
      intro acc hno hoff hsorted
      rw [List.foldl_cons]
      have hoffe : ∀ x ∈ acc, x.offset ≤ e.offset := by
        intro x hx
        exact hoff x hx e (List.mem_cons_self e rest)
      refine ih (resolveStep acc e) (resolveStep_noOv hno hoffe) ?_ (List.Pairwise.of_cons hsorted)
      intro x hx y hy
      rcases resolveStep_subset hx with h | rfl
      · exact hoff x h y (List.mem_cons_of_mem e hy)
      · exact (List.pairwise_cons.mp hsorted).1 y hy

/-- Every error surviving the resolution loop came from the accumulator or
from the input list. -/
theorem foldl_resolveStep_subset :
    ∀ (l acc : List GrammarError) (x : GrammarError),
      x ∈ List.foldl resolveStep acc l → x ∈ acc ∨ x ∈ l := by
  intro l
  induction l with
  | nil => intro acc x hx; exact Or.inl hx
  | cons e rest ih =>
      intro acc x hx
      rw [List.foldl_cons] at hx
      rcases ih (resolveStep acc e) x hx with h | h
      · rcases resolveStep_subset h with h' | rfl
        · exact Or.inl h'
        · exact Or.inr (List.mem_cons_self _ _)
      · exact Or.inr (List.mem_cons_of_mem _ h)

theorem mem_insSorted {α : Type} {le : α → α → Bool} {e x : α} :
    ∀ {l : List α}, x ∈ insSorted le e l ↔ x = e ∨ x ∈ l := by
  intro l
  induction l with
  | nil => simp [insSorted]
  | cons a as ih =>
      by_cases h : le a e
      · rw [insSorted, if_pos h]
        simp only [List.mem_cons, ih]
        tauto
      · rw [insSorted, if_neg h]
        simp only [List.mem_cons]

theorem insSorted_sorted {e : GrammarError} :
    ∀ {l : List GrammarError},
      List.Pairwise (fun a b => a.offset ≤ b.offset) l →
      List.Pairwise (fun a b => a.offset ≤ b.offset)
        (insSorted (fun a b => a.offset ≤ b.offset) e l) := by
  intro l
  induction l with
  | nil => intro _; exact List.pairwise_singleton _ _
  | cons a as ih =>
      intro hs
      obtain ⟨ha, has⟩ := List.pairwise_cons.mp hs
      by_cases h : (a.offset ≤ e.offset : Bool)
      · rw [insSorted, if_pos h]
        refine List.pairwise_cons.mpr ⟨?_, ih has⟩
        intro y hy
        rcases mem_insSorted.mp hy with rfl | hy'
        · exact of_decide_eq_true h
        · exact ha y hy'
      · rw [insSorted, if_neg h]
        have he : e.offset ≤ a.offset := by
          have := of_decide_eq_false (Bool.eq_false_iff.mpr h)
          omega
        refine List.pairwise_cons.mpr ⟨?_, hs⟩
        intro y hy
        rcases List.mem_cons.mp hy with rfl | hy'
        · exact he
        · exact le_trans he (ha y hy')

theorem mem_jsSortBy_aux {α : Type} {le : α → α → Bool} {x : α} :
    ∀ (l acc : List α),
      (x ∈ List.foldl (fun acc e => insSorted le e acc) acc l
        ↔ x ∈ acc ∨ x ∈ l) := by
  intro l
  induction l with
  | nil => intro acc; simp
  | cons e rest ih =>
      intro acc
      rw [List.foldl_cons, ih]
      simp only [mem_insSorted, List.mem_cons]
      tauto

/-- Sorting does not change the set of elements. -/
theorem mem_jsSortBy {α : Type} {le : α → α → Bool} {x : α} {l : List α} :
    x ∈ jsSortBy le l ↔ x ∈ l := by
  rw [jsSortBy, mem_jsSortBy_aux]
  simp

/-- Sorting does not change the set of errors. -/
theorem mem_sortByOffset {x : GrammarError} {l : List GrammarError} :
    x ∈ sortByOffset l ↔ x ∈ l := mem_jsSortBy

theorem sortByOffset_sorted_aux :
    ∀ (l acc : List GrammarError),
      List.Pairwise (fun a b => a.offset ≤ b.offset) acc →
      List.Pairwise (fun a b => a.offset ≤ b.offset)
        (List.foldl (fun acc e => insSorted (fun a b => a.offset ≤ b.offset) e acc) acc l) := by
  intro l
  induction l with
  | nil => intro acc h; exact h
  | cons e rest ih =>
      intro acc h
      rw [List.foldl_cons]
      exact ih _ (insSorted_sorted h)

/-- The sorting pass produces a list sorted by offset. -/
theorem sortByOffset_sorted (l : List GrammarError) :
    List.Pairwise (fun a b => a.offset ≤ b.offset) (sortByOffset l) :=
  sortByOffset_sorted_aux l [] (List.Pairwise.nil)

/-- Overlap resolution over an offset-sorted error list yields a pairwise
non-overlapping list (§3 invariant of the spec). -/
theorem removeOverlapping_sorted_noOv (l : List GrammarError) :
    NoOv (removeOverlappingErrors (sortByOffset l)) := by
  rw [removeOverlappingErrors]
  refine foldl_resolveStep_noOv _ [] List.Pairwise.nil ?_ (sortByOffset_sorted l)
  intro x hx
  cases hx

/-- Output of overlap resolution over the sorted list is a subset of the
original collected errors. -/
theorem removeOverlapping_sortByOffset_subset {l : List GrammarError} {x : GrammarError}
    (hx : x ∈ removeOverlappingErrors (sortByOffset l)) : x ∈ l := by
  rw [removeOverlappingErrors] at hx
  rcases foldl_resolveStep_subset _ [] x hx with h | h
  · cases h
  · exact mem_sortByOffset.mp h

/-! ### Dictionary theorems (C4, C8) -/

/-- C4: if the backing word list is unavailable at load time,
`DictionaryService.isValid` returns `false` for every word — the dictionary
degrades to "every word is invalid" (each ≥3-letter token is then flagged as
misspelled by `applyDictionary`), which is the opposite of the graceful
degradation to "every word is valid" stated by the specification. -/
theorem dict_missing_isValid_false :
    ∀ w : Str, dictIsValid (dictLoad none) w = false := by
  intro w
  rfl

theorem levFuel_length_bound :
    ∀ (fuel : Nat) (xs ys : Str), xs.length + ys.length ≤ fuel →
      ys.length ≤ xs.length + levFuel fuel xs ys ∧
        xs.length ≤ ys.length + levFuel fuel xs ys := by
  intro fuel
  induction fuel with
  | zero =>
      intro xs ys h
      constructor <;> simp [levFuel] <;> omega
  | succ n ih =>
      intro xs ys h
      match xs, ys with
      | [], ys => simp [levFuel]
      | x :: xs, [] => simp [levFuel]
      | x :: xs, y :: ys =>
          have h1 := ih xs (y :: ys) (by simp only [List.length_cons] at h ⊢; omega)
          have h2 := ih (x :: xs) ys (by simp only [List.length_cons] at h ⊢; omega)
          have h3 := ih xs ys (by simp only [List.length_cons] at h ⊢; omega)
          simp only [levFuel, List.length_cons] at *
          omega

/-- Unit edit distance 1 keeps lengths within 1 of each other. -/
theorem levDist_one_natDist {w t : Str} (h : levDist w t = 1) :
    natDist t.length w.length ≤ 1 := by
  have := levFuel_length_bound (w.length + t.length) w t (le_refl _)
  rw [levDist] at h
  rw [h] at this
  rw [natDist]
  omega

theorem broadenLoop_mem_mono {word : Str} {limit : Nat} {x : Str × Nat} :
    ∀ {l : List Str} {results : List (Str × Nat)},
      x ∈ results → x ∈ broadenLoop word limit l results := by
  intro l
  induction l with
  | nil => intro results h; exact h
  | cons cand rest ih =>
      intro results h
      rw [broadenLoop]
      by_cases h1 : List.any results (fun r => r.1 = cand)
      · rw [if_pos h1]; exact ih h
      · rw [if_neg h1]
        by_cases h2 : 1 < natDist cand.length word.length
        · rw [if_pos h2]; exact ih h
        · rw [if_neg h2]
          have hx2 : x ∈ (if 0 < levDist word cand ∧ levDist word cand ≤ 2
              then results ++ [(cand, levDist word cand)] else results) := by
            by_cases h3 : 0 < levDist word cand ∧ levDist word cand ≤ 2
            · rw [if_pos h3]; exact List.mem_append_left _ h
            · rw [if_neg h3]; exact h
          by_cases h4 : limit * 2 ≤ (if 0 < levDist word cand ∧ levDist word cand ≤ 2
              then results ++ [(cand, levDist word cand)] else results).length
          · simp only [if_pos h4]
            exact hx2
          · simp only [if_neg h4]
            exact ih hx2

theorem length_insSorted {α : Type} {le : α → α → Bool} {e : α} :
    ∀ {l : List α}, (insSorted le e l).length = l.length + 1 := by
  intro l
  induction l with
  | nil => rfl
  | cons a as ih =>
      by_cases h : le a e
      · rw [insSorted, if_pos h, List.length_cons, ih, List.length_cons]
      · rw [insSorted, if_neg h, List.length_cons, List.length_cons]

theorem length_jsSortBy_aux {α : Type} {le : α → α → Bool} :
    ∀ (l acc : List α),
      (List.foldl (fun acc e => insSorted le e acc) acc l).length = acc.length + l.length := by
  intro l
  induction l with
  | nil => intro acc; rw [List.foldl_nil, List.length_nil, Nat.add_zero]
  | cons e rest ih =>
      intro acc
      rw [List.foldl_cons, ih, length_insSorted, List.length_cons]
      omega

theorem length_jsSortBy {α : Type} {le : α → α → Bool} {l : List α} :
    (jsSortBy le l).length = l.length := by
  rw [jsSortBy, length_jsSortBy_aux]
  simp

/-- C8 (amended): a dictionary word `target` at unit edit distance exactly 1
from a non-dictionary query `w` is guaranteed to appear in
`suggestions(w, k)` when it additionally shares `w`'s first letter (so the
primary first-letter candidate scan reaches it) and `k` is at least the
total number of collected candidate results (so the `(distance,
lexicographic)` truncation cannot drop it).  As stated in the claim — for
every `k ≥ 1` — it is false: the truncation to `k` can cut `target` off
behind another distance-1 word, and a query whose first letter differs from
`target`'s can miss it entirely (see the counterexample). -/
theorem dictSuggestions_contains_of_enough
    (d : DictState) (w target : Str) (k : Nat) (f : Char)
    (htd : target ∈ d.words)
    (hlow : jsToLower w = w)
    (_hw : dictIsValid d w = false)
    (hdist : levDist w target = 1)
    (hwhead : w.head? = some f)
    (hthead : target.head? = some f)
    (hk : (dictSuggestionsResults d w k).length ≤ k) :
    target ∈ dictSuggestions d w k := by
  have hmem : (target, 1) ∈ dictSuggestionsResults d w k := by
    rw [dictSuggestionsResults]
    simp only [hlow, hwhead]
    have hcand : target ∈ List.filter (fun x => x.head? = some f) d.words := by
      rw [List.mem_filter]
      exact ⟨htd, by rw [hthead]; simp⟩
    have hcons : (target, 1) ∈ considerList w (List.filter (fun x => x.head? = some f) d.words) := by
      rw [considerList, List.mem_filterMap]
      refine ⟨target, hcand, ?_⟩
      have hnd : ¬ 2 < natDist target.length w.length := by
        have := levDist_one_natDist hdist
        omega
      rw [if_neg hnd]
      simp only [hdist]
      rw [if_pos (by omega)]
    by_cases hlen : (considerList w (List.filter (fun x => x.head? = some f) d.words)).length < k
    · rw [if_pos hlen]
      exact broadenLoop_mem_mono hcons
    · rw [if_neg hlen]
      exact hcons
  rw [dictSuggestions]
  have hall : List.take k (jsSortBy suggLe (dictSuggestionsResults d w k)) =
      jsSortBy suggLe (dictSuggestionsResults d w k) := by
    apply List.take_of_length_le
    rw [length_jsSortBy]
    exact hk
  rw [hall]
  exact List.mem_map.mpr ⟨(target, 1), mem_jsSortBy.mpr hmem, rfl⟩

/-- C8 witness: in the dictionary `cat, cut, coat`, the query `cxt` (not a
dictionary word, unit distance 1 from `cat`, sharing its first letter) gets
`cat` suggested at `k = 5`, which is at least the 3 collected candidates. -/
theorem dictSuggestions_contains_witness :
    ("cat".data) ∈ dictSuggestions (dictLoad (some ("cat\ncut\ncoat".data))) ("cxt".data) 5 := by
  apply dictSuggestions_contains_of_enough
    (dictLoad (some ("cat\ncut\ncoat".data))) ("cxt".data) ("cat".data) 5 'c'
  · decide
  · decide
  · decide
  · decide
  · decide
  · decide
  · decide

/-- C8 counterexample: with dictionary `cat, bat`, the query `aat` is not a
dictionary word and is at unit edit distance 1 from the dictionary word
`cat`, yet `suggestions("aat", 1)` is `[bat]` — it does not contain `cat`
even though `k = 1 ≥ 1`, refuting the claim as stated. -/
theorem dictSuggestions_missing_at_k1 :
    ("cat".data) ∈ (dictLoad (some ("cat\nbat".data))).words ∧
      dictIsValid (dictLoad (some ("cat\nbat".data))) ("aat".data) = false ∧
      levDist ("aat".data) ("cat".data) = 1 ∧
      dictSuggestions (dictLoad (some ("cat\nbat".data))) ("aat".data) 1 = [("bat".data)] ∧
      ("cat".data) ∉ dictSuggestions (dictLoad (some ("cat\nbat".data))) ("aat".data) 1 := by
  refine ⟨by decide, by decide, by decide, by decide, by decide⟩

/-! ### Context-score theorems (C9) -/

theorem contextScore_foldl_no_match {candidate : Str} :
    ∀ {ctx : List Str} {acc : ℚ},
      (∀ cw ∈ ctx, ∀ ts, bigramLookup (jsToLower candidate) = some ts →
        List.contains ts (jsToLower cw) = false) →
      List.foldl (contextScoreStep candidate) acc ctx = acc := by
  intro ctx
  induction ctx with
  | nil => intro acc _; rfl
  | cons a rest ih =>
      intro acc h
      rw [List.foldl_cons]
      have hstep : contextScoreStep candidate acc a = acc := by
        rw [contextScoreStep]
        cases hb : bigramLookup (jsToLower candidate) with
        | none => rfl
        | some ts =>
            simp only [Option.elim]
            rw [h a (List.mem_cons_self _ _) ts hb]
            simp
      rw [hstep]
      exact ih (fun cw hcw ts hts => h cw (List.mem_cons_of_mem _ hcw) ts hts)

theorem contextScore_foldl_one {candidate : Str} :
    ∀ {ctx : List Str}, List.foldl (contextScoreStep candidate) 1 ctx = 1 := by
  intro ctx
  induction ctx with
  | nil => rfl
  | cons a rest ih =>
      rw [List.foldl_cons]
      have hstep : contextScoreStep candidate 1 a = 1 := by
        rw [contextScoreStep]
        cases bigramLookup (jsToLower candidate) with
        | none => rfl
        | some ts =>
            simp only [Option.elim]
            by_cases hc : List.contains ts (jsToLower a)
            · rw [if_pos hc]; simp
            · rw [if_neg hc]
      rw [hstep, ih]

theorem contextScore_foldl_match {candidate : Str} :
    ∀ {ctx : List Str},
      (∃ cw ∈ ctx, ∃ ts, bigramLookup (jsToLower candidate) = some ts ∧
        List.contains ts (jsToLower cw) = true) →
      List.foldl (contextScoreStep candidate) 0 ctx = 1 := by
  intro ctx
  induction ctx with
  | nil => rintro ⟨cw, hcw, _⟩; cases hcw
  | cons a rest ih =>
      rintro ⟨cw, hcw, ts, hts, hmatch⟩
      rw [List.foldl_cons]
      cases hb : bigramLookup (jsToLower candidate) with
      | none => rw [hb] at hts; cases hts
      | some ts2 =>
          have hts2 : ts2 = ts := by rw [hb] at hts; cases hts; rfl
          subst hts2
          by_cases hc : List.contains ts2 (jsToLower a) = true
          · have hstep : contextScoreStep candidate 0 a = 1 := by
              simp only [contextScoreStep, hb, Option.elim, hc, if_pos]
              norm_num
            rw [hstep, contextScore_foldl_one]
          · have hstep : contextScoreStep candidate 0 a = 0 := by
              simp only [contextScoreStep, hb, Option.elim]
              rw [if_neg hc]
            rw [hstep]
            rcases List.mem_cons.mp hcw with rfl | hcw'
            · exact absurd hmatch hc
            · exact ih ⟨cw, hcw', ts2, hb, hmatch⟩

/-- C9 (amended): the context-relevance dimension returns 1.0 when some
supplied context word is a known bigram continuation of the candidate in the
fixed table, returns the neutral 0.5 only when NO context words are supplied
at all, and returns 0.0 — not 0.5 — when context words are supplied but none
of them matches (or the candidate has no bigram entry). -/
theorem calculateContextScore_characterization (candidate : Str) (ctx : List Str) :
    (ctx = [] → calculateContextScore candidate ctx = 1/2) ∧
    ((∃ cw ∈ ctx, ∃ ts, bigramLookup (jsToLower candidate) = some ts ∧
        List.contains ts (jsToLower cw) = true) →
      calculateContextScore candidate ctx = 1) ∧
    (ctx ≠ [] →
      (∀ cw ∈ ctx, ∀ ts, bigramLookup (jsToLower candidate) = some ts →
        List.contains ts (jsToLower cw) = false) →
      calculateContextScore candidate ctx = 0) := by
  refine ⟨?_, ?_, ?_⟩
  · intro h
    rw [calculateContextScore, if_pos h]
  · rintro ⟨cw, hcw, ts, hts, hmatch⟩
    have hne : ctx ≠ [] := by
      intro h
      subst h
      cases hcw
    rw [calculateContextScore, if_neg hne]
    exact contextScore_foldl_match ⟨cw, hcw, ts, hts, hmatch⟩
  · intro hne hnone
    rw [calculateContextScore, if_neg hne]
    exact contextScore_foldl_no_match hnone

/-- C9 witness: `calculateContextScore("what", ["is"]) = 1` (match case,
`"is"` is a bigram continuation of `"what"`) and
`calculateContextScore("how", []) = 0.5` (no context words supplied). -/
theorem calculateContextScore_witness :
    calculateContextScore ("what".data) [("is".data)] = 1 ∧
      calculateContextScore ("how".data) [] = 1/2 := by
  constructor
  · exact (calculateContextScore_characterization ("what".data) [("is".data)]).2.1
      ⟨("is".data), by decide, (bigramLookup (jsToLower ("what".data))).getD [],
        by decide, by decide⟩
  · exact (calculateContextScore_characterization ("how".data) []).1 rfl

/-- C9 counterexample: for candidate `"what"` with the supplied context word
`"hello"` (which is not a bigram continuation of `"what"`), the score is
`0`, not the neutral `0.5` stated by the claim. -/
theorem calculateContextScore_not_neutral :
    calculateContextScore ("what".data) [("hello".data)] = 0 ∧ (0 : ℚ) ≠ 1/2 := by
  constructor
  · decide
  · norm_num

/-! ### Frac faithfulness and validation-cache theorems (C5) -/

theorem Frac.blt_eq_val_lt {a b : Frac} (ha : 0 < a.den) (hb : 0 < b.den) :
    Frac.blt a b = decide (a.val < b.val) := by
  have ha2 : (0:ℚ) < (a.den : ℚ) := by exact_mod_cast ha
  have hb2 : (0:ℚ) < (b.den : ℚ) := by exact_mod_cast hb
  apply Eq.symm
  rw [Frac.blt, Frac.val, Frac.val]
  apply decide_eq_decide.mpr
  rw [div_lt_div_iff₀ ha2 hb2]
  exact_mod_cast Iff.rfl

theorem Frac.blt_eq_val_lt_witness :
    Frac.blt (Frac.mk10 3 10) (Frac.mk10 1 2) =
      decide ((Frac.mk10 3 10).val < (Frac.mk10 1 2).val) :=
  Frac.blt_eq_val_lt (by decide) (by decide)

theorem Frac.ble_eq_val_le {a b : Frac} (ha : 0 < a.den) (hb : 0 < b.den) :
    Frac.ble a b = decide (a.val ≤ b.val) := by
  have ha2 : (0:ℚ) < (a.den : ℚ) := by exact_mod_cast ha
  have hb2 : (0:ℚ) < (b.den : ℚ) := by exact_mod_cast hb
  apply Eq.symm
  rw [Frac.ble, Frac.val, Frac.val]
  apply decide_eq_decide.mpr
  rw [div_le_div_iff₀ ha2 hb2]
  exact_mod_cast Iff.rfl

theorem Frac.ble_eq_val_le_witness :
    Frac.ble (Frac.mk10 3 10) (Frac.mk10 1 2) =
      decide ((Frac.mk10 3 10).val ≤ (Frac.mk10 1 2).val) :=
  Frac.ble_eq_val_le (by decide) (by decide)

theorem Frac.val_mul (a b : Frac) : (Frac.mul a b).val = a.val * b.val := by
  rw [Frac.mul, Frac.val, Frac.val, Frac.val]
  push_cast
  rw [div_mul_div_comm]

theorem cacheGet_nil (k : Str) : cacheGet [] k = none := rfl

theorem cacheGet_cacheSet_same (m : ValidationCache) (k : Str) (v : ValidationResult) :
    cacheGet (cacheSet m k v) k = some v := by
  rw [cacheSet]
  by_cases h : List.any m (fun p => p.1 = k)
  · rw [if_pos h]
    induction m with
    | nil => simp at h
    | cons p rest ih =>
        rw [List.map_cons]
        by_cases hp : p.1 = k
        · rw [if_pos hp, cacheGet, List.find?_cons_of_pos _ (by simp)]
          rfl
        · rw [if_neg hp]
          have hrest : List.any rest (fun p => p.1 = k) = true := by
            rw [List.any_cons] at h
            rcases Bool.or_eq_true_iff.mp h with h1 | h1
            · exact absurd (by simpa using h1) hp
            · exact h1
          have := ih hrest
          rw [cacheGet] at this
          rw [cacheGet, List.find?_cons_of_neg _ (by simpa using hp)]
          exact this
  · rw [if_neg h]
    induction m with
    | nil =>
        rw [List.nil_append, cacheGet, List.find?_cons_of_pos _ (by simp)]
        rfl
    | cons p rest ih =>
        have hp : ¬ p.1 = k := by
          intro hk
          exact h (by rw [List.any_cons]; simp [hk])
        have hrest : ¬ List.any rest (fun p => p.1 = k) = true := by
          intro hk
          exact h (by rw [List.any_cons]; simp [hk])
        have := ih hrest
        rw [cacheGet] at this
        rw [cacheGet, List.cons_append, List.find?_cons_of_neg _ (by simpa using hp)]
        exact this

theorem validateSuggestionInContext_eq (ctx : SuggestionContext) (cache : ValidationCache) :
    validateSuggestionInContext ctx cache =
      match cacheGet cache (generateCacheKey ctx) with
      | some r => (r, cache)
      | none =>
          (performValidation ctx,
            cacheSet (if 200 < cache.length then List.drop 1 cache else cache)
              (generateCacheKey ctx) (performValidation ctx)) := rfl

/-- C5 (amended): the validation wrapper is deterministic per cache state —
a miss on the empty cache computes exactly `performValidation`, and an
immediately repeated call with the same context is served the stored result
of the first call.  (What fails in the claim is only cross-text cache
correctness; see the counterexample.) -/
theorem validateSuggestionInContext_deterministic :
    (∀ ctx : SuggestionContext,
      (validateSuggestionInContext ctx []).1 = performValidation ctx) ∧
    (∀ (ctx : SuggestionContext) (cache : ValidationCache),
      (validateSuggestionInContext ctx
        (validateSuggestionInContext ctx cache).2).1 =
        (validateSuggestionInContext ctx cache).1) := by
  constructor
  · intro ctx
    rfl
  · intro ctx cache
    cases hget : cacheGet cache (generateCacheKey ctx) with
    | some r =>
        have hc : validateSuggestionInContext ctx cache = (r, cache) := by
          rw [validateSuggestionInContext_eq, hget]
        rw [hc, validateSuggestionInContext_eq, hget]
    | none =>
        have hc : validateSuggestionInContext ctx cache =
            (performValidation ctx,
              cacheSet (if 200 < cache.length then List.drop 1 cache else cache)
                (generateCacheKey ctx) (performValidation ctx)) := by
          rw [validateSuggestionInContext_eq, hget]
        rw [hc, validateSuggestionInContext_eq, cacheGet_cacheSet_same]

/-- C5 counterexample: two validation contexts over different texts of equal
length share the same cache key (`a-lot-of_15_8_many_29`), so after
validating the fragment text, the cache serves its RISKY result for the
complete-sentence text, while a fresh recomputation yields SAFE — a result
served from the cache does not always equal the result of recomputing it. -/
theorem validation_cache_serves_stale_result :
    generateCacheKey cacheCtxFragment = generateCacheKey cacheCtxComplete ∧
    cacheCtxFragment.originalText ≠ cacheCtxComplete.originalText ∧
    cacheCtxFragment.originalText.length = cacheCtxComplete.originalText.length ∧
    (validateSuggestionInContext cacheCtxComplete
      (validateSuggestionInContext cacheCtxFragment []).2).1.risk = SuggestionRisk.risky ∧
    (performValidation cacheCtxComplete).risk = SuggestionRisk.safe ∧
    (validateSuggestionInContext cacheCtxComplete
      (validateSuggestionInContext cacheCtxFragment []).2).1 ≠
      performValidation cacheCtxComplete := by
  refine ⟨by decide, by decide, by decide, by decide, by decide, ?_⟩
  intro h
  have h2 := congrArg ValidationResult.risk h
  revert h2
  decide

/-! ### Context-aware style processing theorems (C6, C7, C10) -/

/-- Inversion of the per-match loop body: an emitted suggestion keeps its
rule, starts strictly after offset 0, and — when the rule requires
validation — carries a validation verdict that survived the
RISKY-below-0.6 gate. -/
theorem processOneMatch_inv {validate : StyleValidator} {text : Str}
    {rule : ContextAwareStyleRule} {m : RegexMatch} {s : CAStyleSuggestion}
    (h : processOneMatch validate text rule m = some s) :
    s.rule = rule ∧ 0 < s.start ∧
    (rule.requiresValidation = true →
      ∃ v, s.validation = some v ∧
        ¬(v.risk = RiskLabel.RISKY ∧ Frac.blt v.confidence (Frac.mk10 6 10) = true)) ∧
    (rule.requiresValidation = false → s.validation = none) := by
  unfold processOneMatch at h
  by_cases hidx : m.index = 0
  · rw [if_pos hidx] at h
    cases h
  · rw [if_neg hidx] at h
    cases hrepl : rule.contextAwareReplacement m.text (mkStyleContext text m) with
    | none => rw [hrepl] at h; cases h
    | some sugg =>
        rw [hrepl] at h
        dsimp only at h
        unfold processSuggGate at h
        by_cases hreq : rule.requiresValidation
        · rw [if_pos hreq] at h
          unfold processValidated at h
          split at h
          · cases h
          · rename_i hgate
            cases h
            refine ⟨rfl, Nat.pos_of_ne_zero hidx, ?_, ?_⟩
            · intro _
              exact ⟨_, rfl, hgate⟩
            · intro hf
              rw [hreq] at hf
              cases hf
        · rw [if_neg hreq] at h
          cases h
          refine ⟨rfl, Nat.pos_of_ne_zero hidx, ?_, fun _ => rfl⟩
          intro ht
          exact absurd ht hreq

/-- Membership characterisation for the processor output. -/
theorem mem_processWithContextAwareStyleRules
    {validate : StyleValidator} {exec : RegexExec} {text : Str}
    {rules : List ContextAwareStyleRule} {s : CAStyleSuggestion} :
    s ∈ processWithContextAwareStyleRules validate exec text rules ↔
      ∃ rule ∈ rules, ∃ m ∈ exec rule.pattern text,
        processOneMatch validate text rule m = some s := by
  rw [processWithContextAwareStyleRules, List.mem_flatMap]
  constructor
  · rintro ⟨rule, hrule, hs⟩
    obtain ⟨m, hm, he⟩ := List.mem_filterMap.mp hs
    exact ⟨rule, hrule, m, hm, he⟩
  · rintro ⟨rule, hrule, m, hm, he⟩
    exact ⟨rule, hrule, List.mem_filterMap.mpr ⟨m, hm, he⟩⟩

/-- C6: for every rule with `requiresValidation` set, every suggestion the
context-aware processor emits carries a validation verdict, and no emitted
suggestion has a RISKY verdict with confidence below 0.6; consequently, in
the final output of the style-processing pipeline
(`processStyleSuggestions`), no suggestion whose validation risk is RISKY
has confidence below 0.6.  This holds for every validator behaviour (hence
for every state of the validation cache) and every matcher. -/
theorem style_risk_gating (validate : StyleValidator) (exec : RegexExec) (text : Str) :
    (∀ s ∈ processWithContextAwareStyleRules validate exec text contextAwareStyleRules,
      s.rule.requiresValidation = true →
        ∃ v, s.validation = some v ∧
          ¬(v.risk = RiskLabel.RISKY ∧ Frac.blt v.confidence (Frac.mk10 6 10) = true)) ∧
    (∀ g ∈ processStyleSuggestions validate exec text,
      g.validationRisk = some RiskLabel.RISKY →
        Frac.blt g.confidence (Frac.mk10 6 10) = false) := by
  constructor
  · intro s hs hreq
    obtain ⟨rule, _, m, _, he⟩ := mem_processWithContextAwareStyleRules.mp hs
    obtain ⟨hrule, _, hval, _⟩ := processOneMatch_inv he
    exact hval (by rw [hrule] at hreq; exact hreq)
  · intro g hg hrisk
    rw [processStyleSuggestions, filterGrammarSuggestionsByValidation] at hg
    have hg2 := List.mem_of_mem_filter hg
    rw [convertToGrammarSuggestions] at hg2
    obtain ⟨s, hs, hconv⟩ := List.mem_map.mp hg2
    obtain ⟨rule, _, m, _, he⟩ := mem_processWithContextAwareStyleRules.mp hs
    obtain ⟨hrule, _, hval, hnoval⟩ := processOneMatch_inv he
    cases hsv : s.validation with
    | none =>
        rw [← hconv] at hrisk
        simp only [hsv, Option.map_none] at hrisk
        cases hrisk
    | some v =>
        have hvr : v.risk = RiskLabel.RISKY := by
          rw [← hconv] at hrisk
          simp only [hsv, Option.map] at hrisk
          exact Option.some_inj.mp hrisk
        have hreq : rule.requiresValidation = true := by
          by_cases hb : rule.requiresValidation
          · exact hb
          · have := hnoval (by simpa using hb)
            rw [hsv] at this
            cases this
        obtain ⟨v2, hv2, hgate⟩ := hval hreq
        rw [hsv] at hv2
        cases hv2
        have hconf : g.confidence = v.confidence := by
          rw [← hconv]
          simp only [hsv]
        rw [hconf]
        cases hb : Frac.blt v.confidence (Frac.mk10 6 10) with
        | false => rfl
        | true => exact absurd ⟨hvr, hb⟩ hgate

/-- C10: a pattern match beginning at offset 0 never produces a suggestion:
the falsy `if (!match.index) continue` check discards it before the rule's
replacement callback is invoked, so every suggestion emitted by
`processWithContextAwareStyleRules` — and hence by the enhanced style
pipeline — starts strictly after the first character, for every input text,
rule set, matcher and validator behaviour. -/
theorem style_match_at_zero_skipped (validate : StyleValidator) (exec : RegexExec)
    (text : Str) :
    (∀ rules : List ContextAwareStyleRule,
      ∀ s ∈ processWithContextAwareStyleRules validate exec text rules, 0 < s.start) ∧
    (∀ g ∈ processStyleSuggestions validate exec text, 0 < g.start) := by
  constructor
  · intro rules s hs
    obtain ⟨rule, _, m, _, he⟩ := mem_processWithContextAwareStyleRules.mp hs
    exact (processOneMatch_inv he).2.1
  · intro g hg
    rw [processStyleSuggestions, filterGrammarSuggestionsByValidation] at hg
    have hg2 := List.mem_of_mem_filter hg
    rw [convertToGrammarSuggestions] at hg2
    obtain ⟨s, hs, hconv⟩ := List.mem_map.mp hg2
    obtain ⟨rule, _, m, _, he⟩ := mem_processWithContextAwareStyleRules.mp hs
    have := (processOneMatch_inv he).2.1
    rw [← hconv]
    exact this

/-! ### a-lot-of decision theorems (C7) -/

/-- C7 (amended): the selector's `processALotOfRule` inspects the word
following the phrase and suggests `"much"` for nouns in the fixed
uncountable list, `"many"` for words ending in s/es or in the fixed
countable-singular list, and — contrary to the claim — defaults to
`"much"` in every remaining case, returning `null` only when no word
follows at all.  The pipeline's `a-lot-of-contextual` rule, in contrast,
never suggests `"much"`: every suggestion it makes is `"many"`. -/
theorem aLotOf_decision (mt : Str) (cmeta : ContextMetadata) (fullText : Str)
    (ms matchEnd : Nat) :
    (aLotOfNextWord fullText matchEnd = [] →
      processALotOfRule mt cmeta fullText ms matchEnd = none) ∧
    (aLotOfNextWord fullText matchEnd ≠ [] →
      List.contains selectorUncountableNouns (aLotOfNextWord fullText matchEnd) = true →
      processALotOfRule mt cmeta fullText ms matchEnd = some ("much".data)) ∧
    (aLotOfNextWord fullText matchEnd ≠ [] →
      List.contains selectorUncountableNouns (aLotOfNextWord fullText matchEnd) = false →
      (strEnds (aLotOfNextWord fullText matchEnd) ("s".data) = true ∨
        strEnds (aLotOfNextWord fullText matchEnd) ("es".data) = true ∨
        List.contains selectorCommonPluralizable (aLotOfNextWord fullText matchEnd) = true) →
      processALotOfRule mt cmeta fullText ms matchEnd = some ("many".data)) ∧
    (aLotOfNextWord fullText matchEnd ≠ [] →
      List.contains selectorUncountableNouns (aLotOfNextWord fullText matchEnd) = false →
      strEnds (aLotOfNextWord fullText matchEnd) ("s".data) = false →
      strEnds (aLotOfNextWord fullText matchEnd) ("es".data) = false →
      List.contains selectorCommonPluralizable (aLotOfNextWord fullText matchEnd) = false →
      processALotOfRule mt cmeta fullText ms matchEnd = some ("much".data)) ∧
    (∀ (gctx : GrammarContext) (r : Str),
      aLotOfContextualReplacement mt gctx = some r → r = ("many".data)) := by
  refine ⟨?_, ?_, ?_, ?_, ?_⟩
  · intro h
    rw [processALotOfRule, if_pos h]
  · intro hne hunc
    rw [processALotOfRule, if_neg hne, if_pos hunc]
  · intro hne hunc hplural
    rw [processALotOfRule, if_neg hne, if_neg (by rw [hunc]; exact Bool.false_ne_true)]
    rcases hplural with h | h | h
    · rw [if_pos (by rw [h]; simp)]
    · rw [if_pos (by rw [h]; simp)]
    · by_cases hends : (strEnds (aLotOfNextWord fullText matchEnd) ("s".data) ||
          strEnds (aLotOfNextWord fullText matchEnd) ("es".data)) = true
      · rw [if_pos hends]
      · rw [if_neg hends, if_pos h]
  · intro hne hunc hs hes hcpz
    rw [processALotOfRule, if_neg hne, if_neg (by rw [hunc]; exact Bool.false_ne_true),
      if_neg (by rw [hs, hes]; simp), if_neg (by rw [hcpz]; exact Bool.false_ne_true)]
  · intro gctx r h
    rw [aLotOfContextualReplacement] at h
    by_cases h0 : jsToLower (List.headD (jsSplitWs (jsTrim (jsSubFrom gctx.fullText gctx.matchEnd))) []) = []
    · rw [if_pos h0] at h
      cases h
    · rw [if_neg h0] at h
      split at h
      · exact (Option.some_inj.mp h).symm
      · split at h
        · exact (Option.some_inj.mp h).symm
        · cases h

/-- C7 witness: with the text `a lot of issues`, the word `issues` follows
the phrase (plural, in the countable list) and the selector suggests
`"many"`; with `a lot of feedback`, `feedback` is in the uncountable list
and it suggests `"much"`. -/
theorem aLotOf_decision_witness :
    processALotOfRule ("a lot of".data) (buildContextMetadata [] 0 0)
      ("a lot of issues".data) 0 8 = some ("many".data) ∧
    processALotOfRule ("a lot of".data) (buildContextMetadata [] 0 0)
      ("a lot of feedback".data) 0 8 = some ("much".data) := by
  constructor
  · exact (aLotOf_decision ("a lot of".data) (buildContextMetadata [] 0 0)
      ("a lot of issues".data) 0 8).2.2.1 (by decide) (by decide)
      (Or.inl (by decide))
  · exact (aLotOf_decision ("a lot of".data) (buildContextMetadata [] 0 0)
      ("a lot of feedback".data) 0 8).2.1 (by decide) (by decide)

/-- C7 counterexample: after `a lot of butter`, the head noun `butter` is
neither in the uncountable list, nor plural, nor a known countable
singular — the claim says nothing should be suggested, but
`processALotOfRule` suggests `"much"`; and after `a lot of feedback`
(uncountable list), where the claim says `"much"` should be suggested, the
pipeline's `a-lot-of-contextual` rule suggests nothing. -/
theorem aLotOf_contradicts_claim :
    (List.contains selectorUncountableNouns ("butter".data) = false ∧
      strEnds ("butter".data) ("s".data) = false ∧
      strEnds ("butter".data) ("es".data) = false ∧
      List.contains selectorCommonPluralizable ("butter".data) = false ∧
      processALotOfRule ("a lot of".data) (buildContextMetadata [] 0 0)
        ("a lot of butter".data) 0 8 = some ("much".data)) ∧
    (List.contains selectorUncountableNouns ("feedback".data) = true ∧
      aLotOfContextualReplacement ("a lot of".data)
        { fullText := ("a lot of feedback".data), matchStart := 0, matchEnd := 8,
          beforeContext := [], afterContext := [],
          sentencePosition := SentencePos.standalone,
          isCompleteSentence := false } = none) := by
  refine ⟨⟨by decide, by decide, by decide, by decide, by decide⟩, by decide, by decide⟩
/-! ### Engine theorems (C1, C2, C3) -/

theorem execNone_sound : SoundExec execNone := by
  intro p t m hm
  cases hm

theorem soundExec_nil {exec : RegexExec} (hex : SoundExec exec) (p : Str) :
    exec p [] = [] := by
  rw [List.eq_nil_iff_forall_not_mem]
  intro m hm
  obtain ⟨hne, hle, _⟩ := hex p [] m hm
  have hpos : 0 < m.text.length := List.length_pos.mpr hne
  simp only [List.length_nil] at hle
  omega

/-- Every error built by `applyRule` records a valid span of the text. -/
theorem applyRule_valid {exec : RegexExec} (hex : SoundExec exec) {text : Str}
    {rule : EngineRule} {e : GrammarError} (he : e ∈ applyRule exec text rule) :
    ErrorValid text e := by
  unfold applyRule at he
  obtain ⟨m, hm, hrec⟩ := List.mem_map.mp he
  obtain ⟨hne, hle, hsub⟩ := hex rule.pattern text m hm
  subst hrec
  exact ⟨List.length_pos.mpr hne, hle, hsub⟩

/-- Span provenance of one emitted context-aware suggestion: its
boundaries and text are those of the regex match. -/
theorem processOneMatch_span {validate : StyleValidator} {text : Str}
    {rule : ContextAwareStyleRule} {m : RegexMatch} {s : CAStyleSuggestion}
    (h : processOneMatch validate text rule m = some s) :
    s.start = m.index ∧ s.stop = m.index + m.text.length ∧ s.matchText = m.text := by
  unfold processOneMatch at h
  by_cases hidx : m.index = 0
  · rw [if_pos hidx] at h
    cases h
  · rw [if_neg hidx] at h
    cases hrepl : rule.contextAwareReplacement m.text (mkStyleContext text m) with
    | none => rw [hrepl] at h; cases h
    | some sugg =>
        rw [hrepl] at h
        dsimp only at h
        unfold processSuggGate at h
        by_cases hreq : rule.requiresValidation
        · rw [if_pos hreq] at h
          unfold processValidated at h
          split at h
          · cases h
          · cases h
            exact ⟨rfl, rfl, rfl⟩
        · rw [if_neg hreq] at h
          cases h
          exact ⟨rfl, rfl, rfl⟩

/-- Every suggestion surviving the style pipeline converts to an error
with a valid span. -/
theorem styleError_valid {validate : StyleValidator} {exec : RegexExec}
    (hex : SoundExec exec) {text : Str} {g : GrammarSuggestion}
    (hg : g ∈ processStyleSuggestions validate exec text) :
    ErrorValid text (styleSuggestionToError text g) := by
  rw [processStyleSuggestions, filterGrammarSuggestionsByValidation] at hg
  have hg2 := List.mem_of_mem_filter hg
  rw [convertToGrammarSuggestions] at hg2
  obtain ⟨s, hs, hconv⟩ := List.mem_map.mp hg2
  obtain ⟨rule, _, m, hm, he⟩ := mem_processWithContextAwareStyleRules.mp hs
  obtain ⟨hstart, hstop, htext⟩ := processOneMatch_span he
  obtain ⟨hne, hle, hsub⟩ := hex rule.pattern text m hm
  subst hconv
  have hpos : 0 < m.text.length := List.length_pos.mpr hne
  refine ⟨?_, ?_, ?_⟩
  · show 0 < s.stop - s.start
    rw [hstart, hstop]
    omega
  · show s.start + (s.stop - s.start) ≤ text.length
    rw [hstart, hstop]
    omega
  · show jsSub text s.start (s.start + (s.stop - s.start)) = s.matchText
    rw [hstart, hstop, htext]
    have harith : m.index + (m.index + m.text.length - m.index) =
        m.index + m.text.length := by omega
    rw [harith]
    exact hsub

/-- The tokenizer scan only reports in-bounds, non-empty substrings at
their own index. -/
theorem alphaTokensGo_valid (full : Str) :
    ∀ (fuel pos : Nat) (s : Str), s = List.drop pos full →
      ∀ t ∈ alphaTokensGo fuel pos s,
        0 < t.2.length ∧ t.1 + t.2.length ≤ full.length ∧
          jsSub full t.1 (t.1 + t.2.length) = t.2 := by
  intro fuel
  induction fuel with
  | zero =>
      intro pos s _ t ht
      simp only [alphaTokensGo] at ht
      cases ht
  | succ n ih =>
      intro pos s hs t ht
      cases s with
      | nil =>
          simp only [alphaTokensGo] at ht
          cases ht
      | cons c rest =>
          rw [alphaTokensGo] at ht
          have hlen : full.length = pos + rest.length + 1 := by
            have h1 : (List.drop pos full).length = full.length - pos :=
              List.length_drop _ _
            rw [← hs] at h1
            simp only [List.length_cons] at h1
            omega
          have hsplit : (c :: List.takeWhile isWordChar rest) ++
              List.dropWhile isWordChar rest = c :: rest := by
            rw [List.cons_append, List.takeWhile_append_dropWhile]
          have hdropfull :
              List.drop (pos + (c :: List.takeWhile isWordChar rest).length) full =
                List.dropWhile isWordChar rest := by
            rw [← List.drop_drop, ← hs, ← hsplit, List.drop_left]
          by_cases hw : isWordChar c
          · rw [if_pos hw] at ht
            by_cases hcond : ((c :: List.takeWhile isWordChar rest).all isAlphaChar &&
                decide (3 ≤ (c :: List.takeWhile isWordChar rest).length)) = true
            · rw [if_pos hcond] at ht
              rcases List.mem_cons.mp ht with rfl | htail
              · have hrunlen : (c :: List.takeWhile isWordChar rest).length ≤
                    rest.length + 1 := by
                  simp only [List.length_cons]
                  have := (List.takeWhile_prefix (p := isWordChar) (l := rest)).length_le
                  omega
                refine ⟨Nat.succ_pos _, ?_, ?_⟩
                · show pos + (c :: List.takeWhile isWordChar rest).length ≤ full.length
                  omega
                · show jsSub full pos
                      (pos + (c :: List.takeWhile isWordChar rest).length) =
                      c :: List.takeWhile isWordChar rest
                  unfold jsSub
                  rw [Nat.add_sub_cancel_left, ← hs, ← hsplit, List.take_left]
              · exact ih _ _ hdropfull.symm t htail
            · rw [if_neg hcond] at ht
              exact ih _ _ hdropfull.symm t ht
          · rw [if_neg hw] at ht
            have hdrop1 : List.drop (pos + 1) full = rest := by
              rw [← List.drop_drop, ← hs]
              rfl
            exact ih _ _ hdrop1.symm t ht

/-- Every `/\b[a-zA-Z]{3,}\b/g` token is a non-empty in-bounds substring
at its reported index. -/
theorem alphaTokens_valid {text : Str} {t : Nat × Str} (ht : t ∈ alphaTokens text) :
    0 < t.2.length ∧ t.1 + t.2.length ≤ text.length ∧
      jsSub text t.1 (t.1 + t.2.length) = t.2 :=
  alphaTokensGo_valid text text.length 0 text (List.drop_zero text).symm t ht

/-- Every dictionary-pass error records a valid span of the text. -/
theorem applyDictionary_valid {d : DictState} {text : Str}
    {existing : List GrammarError} {e : GrammarError}
    (he : e ∈ applyDictionary d text existing) : ErrorValid text e := by
  unfold applyDictionary at he
  obtain ⟨t, ht, hmk⟩ := List.mem_filterMap.mp he
  obtain ⟨hpos, hle, hsub⟩ := alphaTokens_valid ht
  split at hmk
  · cases hmk
  · split at hmk
    · cases hmk
    · cases hmk
      exact ⟨hpos, hle, hsub⟩

/-- C2: for every input text and every suggestion returned by
`GrammarEngine.checkText` (under a sound regex executor, any validator
behaviour and any dictionary state), the recorded span is valid: the
length is positive, `offset + length` stays within the text (offsets are
naturals, so `0 ≤ offset` is inherent to the model), and
`text[offset : offset+length]` equals the suggestion's recorded original
text.  This follows the claim through all three collection phases (table
rules, the context-aware style pipeline, the enhanced spelling checker)
and through sorting and overlap resolution. -/
theorem checkText_offsets_valid (validate : StyleValidator) (exec : RegexExec)
    (d : DictState) (text : Str) (hex : SoundExec exec) :
    ∀ e ∈ (checkText validate exec d text).errors, ErrorValid text e := by
  intro e he
  have he1 : e ∈ removeOverlappingErrors
      (sortByOffset (collectAllErrors validate exec d text)) := he
  have he2 : e ∈ collectAllErrors validate exec d text :=
    removeOverlapping_sortByOffset_subset he1
  unfold collectAllErrors at he2
  rcases List.mem_append.mp he2 with hAB | hC
  · rcases List.mem_append.mp hAB with hA | hB
    · obtain ⟨r, _, hx⟩ := List.mem_flatMap.mp hA
      exact applyRule_valid hex hx
    · obtain ⟨g, hg, hconv⟩ := List.mem_map.mp hB
      subst hconv
      exact styleError_valid hex hg
  · have hC' : e ∈ spellRuleErrors exec text ++
        applyDictionary d text (spellRuleErrors exec text) := hC
    rcases List.mem_append.mp hC' with h1 | h2
    · unfold spellRuleErrors at h1
      obtain ⟨r, _, hx⟩ := List.mem_flatMap.mp h1
      exact applyRule_valid hex hx
    · exact applyDictionary_valid h2

theorem checkText_offsets_valid_witness :
    helloDictError ∈
      (checkText validateSuggestionPure execNone (dictLoad none) ("hello".data)).errors ∧
    ErrorValid ("hello".data) helloDictError :=
  ⟨by decide,
   checkText_offsets_valid validateSuggestionPure execNone (dictLoad none)
     ("hello".data) execNone_sound helloDictError (by decide)⟩

/-- C1: for every input text (any executor, validator behaviour and
dictionary state), no two suggestions returned by
`GrammarEngine.checkText` have intersecting `[offset, offset+length)`
ranges; and during overlap resolution, whenever the incoming error
overlaps the entry at the first overlapping index of the accumulator, the
entry kept is the one with strictly higher confidence — on ties
(`Frac.blt` false) the earlier-inserted entry stays. -/
theorem checkText_no_overlap_keeps_higher_confidence (validate : StyleValidator)
    (exec : RegexExec) (d : DictState) (text : Str)
    (filtered : List GrammarError) (e : GrammarError) (i : Nat)
    (hi : i < filtered.length)
    (hfi : jsFindIndex (fun existing => doErrorsOverlap e existing) filtered = some i) :
    NoOv (checkText validate exec d text).errors ∧
    resolveStep filtered e =
      (if Frac.blt (filtered.get ⟨i, hi⟩).confidence e.confidence
       then filtered.set i e else filtered) := by
  constructor
  · have h : (checkText validate exec d text).errors =
        removeOverlappingErrors (sortByOffset (collectAllErrors validate exec d text)) :=
      rfl
    rw [h]
    exact removeOverlapping_sorted_noOv _
  · rw [resolveStep_eq_replace hfi]
    exact resolveReplace_eq_of_get hi

theorem checkText_no_overlap_keeps_higher_confidence_witness :
    NoOv (checkText validateSuggestionPure execNone (dictLoad none) ("hello".data)).errors ∧
    resolveStep [ovErrLow] ovErrHigh = [ovErrHigh] := by
  have h := checkText_no_overlap_keeps_higher_confidence validateSuggestionPure execNone
    (dictLoad none) ("hello".data) [ovErrLow] ovErrHigh 0 (by decide) (by decide)
  refine ⟨h.1, ?_⟩
  rw [h.2]
  decide

/-- C3 counterexample: on the empty string, `analyzeTone` returns
`"casual"`, not `"neutral"` — the empty text has zero sentences, the
average sentence length is set to `0`, the `avgSentenceLength < 10`
branch adds `2` to the `informal` score, so the dominant tone is
`informal`, which maps to `"casual"`. -/
theorem analyzeTone_empty_not_neutral :
    analyzeTone [] = ("casual".data) ∧ analyzeTone [] ≠ ("neutral".data) := by
  constructor
  · decide
  · decide

/-- C3 (amended): on the empty string, `checkText` (under any sound
executor, validator behaviour and dictionary state) returns an empty
suggestion list, and all error counts and enhanced-spelling counts are
zero — but `totalChecks` is the constant `46` (the 45 active table rules
plus the enhanced style pass), not zero, and `analyzeTone("")` returns
`"casual"`, not `"neutral"`. -/
theorem checkText_empty_stats_tone (validate : StyleValidator) (exec : RegexExec)
    (d : DictState) (hex : SoundExec exec) :
    (checkText validate exec d []).errors = [] ∧
    (checkText validate exec d []).stats =
      { totalChecks := 46, grammarErrors := 0, spellingErrors := 0, styleErrors := 0,
        enhancedSpelling :=
          { wordsChecked := 0, ruleBasedErrors := 0, dictionaryErrors := 0 } } ∧
    analyzeTone [] = ("casual".data) := by
  have happly : ∀ rule : EngineRule, applyRule exec [] rule = [] := by
    intro rule
    unfold applyRule
    rw [soundExec_nil hex]
    rfl
  have hflat : ∀ rules : List EngineRule,
      List.flatMap rules (applyRule exec []) = [] := by
    intro rules
    rw [List.eq_nil_iff_forall_not_mem]
    intro x hx
    obtain ⟨r, _, hxr⟩ := List.mem_flatMap.mp hx
    rw [happly r] at hxr
    cases hxr
  have hstyle : processStyleSuggestions validate exec [] = [] := by
    rw [processStyleSuggestions]
    have hp : processWithContextAwareStyleRules validate exec [] contextAwareStyleRules
        = [] := by
      rw [List.eq_nil_iff_forall_not_mem]
      intro s hs
      obtain ⟨rule, _, m, hm, _⟩ := mem_processWithContextAwareStyleRules.mp hs
      rw [soundExec_nil hex] at hm
      cases hm
    rw [hp]
    rfl
  have hsr : spellRuleErrors exec [] = [] := hflat spellingRules
  have hspe : (checkSpelling exec d []).errors = [] := by
    show spellRuleErrors exec [] ++ applyDictionary d [] (spellRuleErrors exec []) = []
    rw [hsr]
    rfl
  have hsps : (checkSpelling exec d []).stats = ⟨0, 0, 0⟩ := by
    show (⟨(alphaTokens []).length, (spellRuleErrors exec []).length,
        (applyDictionary d [] (spellRuleErrors exec [])).length⟩ :
        EnhancedSpellingStats) = ⟨0, 0, 0⟩
    rw [hsr]
    rfl
  have hcoll : collectAllErrors validate exec d [] = [] := by
    unfold collectAllErrors
    rw [hflat, hstyle, hspe]
    rfl
  refine ⟨?_, ?_, by decide⟩
  · show removeOverlappingErrors (sortByOffset (collectAllErrors validate exec d [])) = []
    rw [hcoll]
    rfl
  · show checkStatsOf (checkSpelling exec d []).stats
        (removeOverlappingErrors (sortByOffset (collectAllErrors validate exec d []))) = _
    rw [hcoll, hsps]
    decide

theorem checkText_empty_stats_tone_witness :
    (checkText validateSuggestionPure execNone (dictLoad none) []).errors = [] ∧
    (checkText validateSuggestionPure execNone (dictLoad none) []).stats =
      { totalChecks := 46, grammarErrors := 0, spellingErrors := 0, styleErrors := 0,
        enhancedSpelling :=
          { wordsChecked := 0, ruleBasedErrors := 0, dictionaryErrors := 0 } } ∧
    analyzeTone [] = ("casual".data) :=
  checkText_empty_stats_tone validateSuggestionPure execNone (dictLoad none) execNone_sound
